import Mathlib

/-!
Verification development for the books.toscrape.com crawling project
(`src/crawler/scraper.py`, `src/crawler/storage.py`,
`src/scheduler/change_detector.py`, `src/utilities/config.py`,
`src/api/models.py`).

The Python source is shallowly embedded: pure functions become Lean
functions, the stateful crawl loop becomes explicit state passing, the
event-producing parts (semaphore handling, sleeps, log lines) become
explicit event traces.  Python dictionaries are association lists, Python
floats are modelled as exact rationals (the values this program feeds into
them are parsed two-decimal prices, on which float equality coincides with
rational equality), wall-clock timestamps are omitted.
-/

namespace BooksCrawl

/-! ## Python values and dictionaries

`detect_changes` and `generate_content_hash` receive Python `dict`s whose
entries are strings, floats or `None`.  A dictionary is an association
list; `Dict.get` returns the first binding of a key and `noneV` for an
absent key, mirroring Python's `dict.get(key)` whose default is `None`. -/

inductive PyVal where
  | str : String → PyVal
  | num : ℚ → PyVal
  | noneV : PyVal
deriving DecidableEq, Repr

abbrev Dict := List (String × PyVal)

/-- Python `d.get(k)` (default `None`): first binding of `k`, else `None`. -/
def Dict.get (d : Dict) (k : String) : PyVal :=
  match d.find? (fun p => p.1 == k) with
  | some p => p.2
  | none => .noneV

/-- Python `d[k] = v` on an association list: replace the first binding of
`k`, or append a new binding. -/
def Dict.set (d : Dict) (k : String) (v : PyVal) : Dict :=
  match d with
  | [] => [(k, v)]
  | p :: rest => if p.1 = k then (k, v) :: rest else p :: Dict.set rest k v

/-! ## Settings (`src/utilities/config.py`, class `Settings`)

Only the crawler-relevant numeric defaults are embedded. -/

structure Settings where
  crawler_concurrency : ℕ := 10
  crawler_max_retries : ℕ := 3
  crawler_timeout_seconds : ℕ := 30

def settings : Settings := {}

/-! ## Models (`src/api/models.py`) -/

/-- `CrawlStatus` of `src/api/models.py` (`SUCCESS`/`FAILED`/`PARTIAL`);
the third constructor is renamed because `partial` is a Lean keyword. -/
inductive CrawlStatus where
  | success
  | failed
  | partialRun
deriving DecidableEq, Repr

/-- `ChangeType` of `src/api/models.py` (values `new_book`, `price_change`,
`availability_change`, `description_change`, `other`). -/
inductive ChangeType where
  | newBook
  | priceChange
  | availabilityChange
  | descriptionChange
  | other
deriving DecidableEq, Repr

/-- `ChangeLog` of `src/api/models.py`; `old_value`/`new_value` are the
payload dictionaries built by `detect_changes`.  The `detected_at`
wall-clock timestamp is omitted from the model. -/
structure ChangeLog where
  book_id : String
  book_name : String
  change_type : ChangeType
  old_value : Dict
  new_value : Dict
deriving DecidableEq, Repr

/-! ## Change detection (`src/scheduler/change_detector.py`) -/

/-- Python `str(old_book.get("_id", ""))`: the `_id` value as a string,
`""` when absent.  (A stored document's `_id` is rendered to its string
form; non-string values other than an absent key do not occur in the
modelled flows.) -/
def bookIdOf (v : PyVal) : String :=
  match v with
  | .str s => s
  | _ => ""

/-- Python `new_book.get("name", "Unknown")`. -/
def bookNameOf (v : PyVal) : String :=
  match v with
  | .str s => s
  | _ => "Unknown"

/-- The price payload `{"price_incl_tax": b.get(...), "price_excl_tax":
b.get(...)}` built for a `PRICE_CHANGE` event. -/
def pricePayload (b : Dict) : Dict :=
  [("price_incl_tax", b.get "price_incl_tax"),
   ("price_excl_tax", b.get "price_excl_tax")]

/-- `ChangeDetector.detect_changes` (`src/scheduler/change_detector.py`
lines 22–73): three independent field-group comparisons, each appending at
most one event, in source order (price, availability, description).  The
price comparison tests only the `price_incl_tax` values. -/
def detect_changes (old_book new_book : Dict) : List ChangeLog :=
  let book_id := bookIdOf (old_book.get "_id")
  let book_name := bookNameOf (new_book.get "name")
  (if old_book.get "price_incl_tax" ≠ new_book.get "price_incl_tax" then
    [{ book_id := book_id, book_name := book_name,
       change_type := .priceChange,
       old_value := pricePayload old_book,
       new_value := pricePayload new_book }]
   else []) ++
  (if old_book.get "availability" ≠ new_book.get "availability" then
    [{ book_id := book_id, book_name := book_name,
       change_type := .availabilityChange,
       old_value := [("availability", old_book.get "availability")],
       new_value := [("availability", new_book.get "availability")] }]
   else []) ++
  (if old_book.get "description" ≠ new_book.get "description" then
    [{ book_id := book_id, book_name := book_name,
       change_type := .descriptionChange,
       old_value := [("description", old_book.get "description")],
       new_value := [("description", new_book.get "description")] }]
   else [])

/-- Summary dictionary returned by `run_change_detection` (the
`timestamp` entry is omitted from the model). -/
structure DetectionSummary where
  total_books_checked : ℕ
  new_books : ℕ
  changes_detected : ℕ
  change_types : List (String × ℕ)
deriving DecidableEq, Repr

/-- Side effects of `run_change_detection`: which pairs were handed to the
field comparator `detect_changes`, and which events were inserted into the
`change_log` collection. -/
structure DetectionEffects where
  detect_changes_calls : List (Dict × Dict)
  change_log_inserts : List ChangeLog
deriving DecidableEq, Repr

/-- The `summary["change_types"][t] = summary["change_types"].get(t, 0) + 1`
update on an association list of counters. -/
def bumpCount (acc : List (String × ℕ)) (t : String) : List (String × ℕ) :=
  match acc with
  | [] => [(t, 1)]
  | p :: rest => if p.1 = t then (t, p.2 + 1) :: rest else p :: bumpCount rest t

/-- `ChangeDetector.run_change_detection` (`src/scheduler/change_detector.py`
lines 89–134) as a function of the stored book documents.  `stored_books`
is a Python dict keyed by each document's `"url"` value (later documents
overwrite earlier ones), so `total_books_checked` counts distinct urls.
`changes_detected` is initialised to the empty list and never extended:
no re-fetch happens, `detect_changes` is never invoked, the
`if changes_detected:` insertion loop is skipped. -/
def run_change_detection (books : List Dict) : DetectionSummary × DetectionEffects :=
  let stored_urls : List PyVal := (books.map (fun b => b.get "url")).dedup
  let changes_detected : List ChangeLog := []
  let new_books_count : ℕ := 0
  let inserts : List ChangeLog := if changes_detected.isEmpty then [] else changes_detected
  let change_types : List (String × ℕ) := []
  (⟨stored_urls.length, new_books_count, changes_detected.length, change_types⟩,
   ⟨[], inserts⟩)

end BooksCrawl

namespace BooksCrawl

/-! ### Theorems for the change detector -/

/-- C2 counterexample: two records whose price fields "differ as a unit"
through the excluded-tax price alone (`price_excl_tax` 9.99 → 8.99,
`price_incl_tax` unchanged, all other fields unchanged) produce zero
events — not the one `PRICE_CHANGE` event the claim requires. -/
theorem detect_changes_excl_only_change_no_event :
    Dict.get [("price_incl_tax", PyVal.num 10.99), ("price_excl_tax", PyVal.num 9.99),
              ("availability", PyVal.str "In stock"), ("description", PyVal.str "x")]
        "price_excl_tax" ≠
      Dict.get [("price_incl_tax", PyVal.num 10.99), ("price_excl_tax", PyVal.num 8.99),
              ("availability", PyVal.str "In stock"), ("description", PyVal.str "x")]
        "price_excl_tax" ∧
    detect_changes
      [("price_incl_tax", PyVal.num 10.99), ("price_excl_tax", PyVal.num 9.99),
       ("availability", PyVal.str "In stock"), ("description", PyVal.str "x")]
      [("price_incl_tax", PyVal.num 10.99), ("price_excl_tax", PyVal.num 8.99),
       ("availability", PyVal.str "In stock"), ("description", PyVal.str "x")] = [] := by
  constructor
  · simp [Dict.get]
    norm_num
  · simp [detect_changes, Dict.get]

/-- C2 (amended): `detect_changes` emits one `PRICE_CHANGE` event — whose
old-value payload carries both old prices and whose new-value payload
carries both new prices — exactly when the `price_incl_tax` values differ
(a difference confined to `price_excl_tax` emits nothing); and two records
with identical values on every key produce zero events. -/
theorem detect_changes_price_events (old_book new_book : Dict) :
    ((detect_changes old_book new_book).filter
        (fun c => c.change_type = ChangeType.priceChange) =
      if old_book.get "price_incl_tax" ≠ new_book.get "price_incl_tax" then
        [{ book_id := bookIdOf (old_book.get "_id"),
           book_name := bookNameOf (new_book.get "name"),
           change_type := .priceChange,
           old_value := pricePayload old_book,
           new_value := pricePayload new_book }]
      else []) ∧
    ((∀ k, old_book.get k = new_book.get k) → detect_changes old_book new_book = []) := by
  constructor
  · unfold detect_changes
    by_cases hp : old_book.get "price_incl_tax" = new_book.get "price_incl_tax" <;>
      by_cases ha : old_book.get "availability" = new_book.get "availability" <;>
      by_cases hd : old_book.get "description" = new_book.get "description" <;>
      simp [hp, ha, hd, List.filter]
  · intro h
    unfold detect_changes
    simp [h "price_incl_tax", h "availability", h "description"]

/-- Closed witness for `detect_changes_price_events`: instantiated at a
concrete record pair whose `price_incl_tax` values differ, and at a pair
of identical records. -/
theorem detect_changes_price_events_witness :
    (detect_changes
        [("price_incl_tax", PyVal.num 10.99), ("price_excl_tax", PyVal.num 9.99)]
        [("price_incl_tax", PyVal.num 12.99), ("price_excl_tax", PyVal.num 11.99)]).filter
        (fun c => c.change_type = ChangeType.priceChange) =
      [{ book_id := "", book_name := "Unknown",
         change_type := .priceChange,
         old_value := [("price_incl_tax", PyVal.num 10.99),
                       ("price_excl_tax", PyVal.num 9.99)],
         new_value := [("price_incl_tax", PyVal.num 12.99),
                       ("price_excl_tax", PyVal.num 11.99)] }] ∧
    detect_changes [("availability", PyVal.str "In stock")]
        [("availability", PyVal.str "In stock")] = [] := by
  constructor
  · have h := (detect_changes_price_events
      [("price_incl_tax", PyVal.num 10.99), ("price_excl_tax", PyVal.num 9.99)]
      [("price_incl_tax", PyVal.num 12.99), ("price_excl_tax", PyVal.num 11.99)]).1
    rw [h]
    simp [Dict.get, pricePayload, bookIdOf, bookNameOf]
    norm_num
  · exact (detect_changes_price_events _ _).2 (fun k => rfl)

/-- C9: the top-level `run_change_detection` driver reports zero detected
changes and zero new books, never invokes the field comparator
`detect_changes`, and inserts nothing into the `change_log` history,
whatever the database contents are. -/
theorem run_change_detection_is_noop (books : List Dict) :
    (run_change_detection books).1.changes_detected = 0 ∧
    (run_change_detection books).1.new_books = 0 ∧
    (run_change_detection books).2.detect_changes_calls = [] ∧
    (run_change_detection books).2.change_log_inserts = [] := by
  refine ⟨rfl, rfl, rfl, rfl⟩

/-! ## Fetching with retry (`src/crawler/scraper.py`, `BookScraper.fetch_with_retry`)

`fetch_with_retry` is embedded as an event-trace producer.  The
environment is a function `attempt : ℕ → Option String` giving the
outcome of the HTTP attempt made with retry counter `retries` (`some
html` on success, `none` for a raised `httpx` error or timeout).  The
produced trace records, in order: the acquisition of a permit of the
concurrency semaphore (`async with self.semaphore`), the HTTP call, the
release of the permit (leaving the `async with` block, normally or by
exception propagation), each backoff sleep with its duration in seconds,
and the final error log line that names the url after retries are
exhausted. -/

inductive FetchEvent where
  | acquire
  | httpCall (idx : ℕ)
  | release
  | sleep (secs : ℕ)
  | errorLog (url : String)
deriving DecidableEq, Repr

/-- The recursion of `fetch_with_retry` on the fuel `maxRetries - retries`:
a successful attempt returns inside the `async with` block (permit
acquired, HTTP call, permit released on return); a failed attempt leaves
the `async with` block by exception propagation (releasing the permit),
then — when `retries < self.max_retries`, i.e. the fuel is nonzero —
sleeps `2 ^ retries` seconds and recurses with `retries + 1`, and
otherwise logs the error naming the url and returns `None`. -/
def fetchGo (attempt : ℕ → Option String) (url : String) :
    ℕ → ℕ → List FetchEvent × Option String
  | fuel, retries =>
    match attempt retries with
    | some content => ([.acquire, .httpCall retries, .release], some content)
    | none =>
      match fuel with
      | f + 1 =>
        let rest := fetchGo attempt url f (retries + 1)
        ([.acquire, .httpCall retries, .release, .sleep (2 ^ retries)] ++ rest.1, rest.2)
      | 0 => ([.acquire, .httpCall retries, .release, .errorLog url], none)

/-- `BookScraper.fetch_with_retry` (`src/crawler/scraper.py` lines 33–68).
The guard `retries < max_retries` is encoded by the fuel
`max_retries - retries`, which the recursion decreases in lockstep with
the increment of `retries`. -/
def fetch_with_retry (max_retries : ℕ) (attempt : ℕ → Option String)
    (url : String) (retries : ℕ) : List FetchEvent × Option String :=
  fetchGo attempt url (max_retries - retries) retries

/-- Each event of a trace annotated with the number of semaphore permits
this fetch holds just as the event happens (`acquire` increments the
count right after the annotated event, `release` decrements it). -/
def annotateHeld (held : ℕ) : List FetchEvent → List (ℕ × FetchEvent)
  | [] => []
  | e :: es =>
    (held, e) ::
      annotateHeld
        (match e with
         | .acquire => held + 1
         | .release => held - 1
         | _ => held) es

/-- The backoff sleep durations of a trace, in order. -/
def sleepsOf (tr : List FetchEvent) : List ℕ :=
  tr.filterMap (fun e => match e with | .sleep s => some s | _ => none)

/-- Whether an event is a backoff sleep. -/
def FetchEvent.isSleep : FetchEvent → Bool
  | .sleep _ => true
  | _ => false

/-- Whether an event is an HTTP call. -/
def FetchEvent.isHttp : FetchEvent → Bool
  | .httpCall _ => true
  | _ => false

/-- The number of HTTP attempts recorded in a trace. -/
def httpCallsOf (tr : List FetchEvent) : ℕ :=
  (tr.filterMap (fun e => match e with | .httpCall i => some i | _ => none)).length

end BooksCrawl

namespace BooksCrawl

/-! ### Theorems for the fetcher -/

/-- Unfolding lemma: a failing attempt with fuel left prepends the
acquire/call/release/sleep block and recurses. -/
theorem fetchGo_fail_succ (attempt : ℕ → Option String) (url : String)
    (f retries : ℕ) (h : attempt retries = none) :
    fetchGo attempt url (f + 1) retries =
      ([.acquire, .httpCall retries, .release, .sleep (2 ^ retries)] ++
        (fetchGo attempt url f (retries + 1)).1,
       (fetchGo attempt url f (retries + 1)).2) := by
  rw [fetchGo, h]

/-- Unfolding lemma: a failing attempt with no fuel left logs the error
naming the url and returns `none`. -/
theorem fetchGo_fail_zero (attempt : ℕ → Option String) (url : String)
    (retries : ℕ) (h : attempt retries = none) :
    fetchGo attempt url 0 retries =
      ([.acquire, .httpCall retries, .release, .errorLog url], none) := by
  rw [fetchGo, h]

/-- Unfolding lemma: a successful attempt returns its content. -/
theorem fetchGo_success (attempt : ℕ → Option String) (url : String)
    (f retries : ℕ) (c : String) (h : attempt retries = some c) :
    fetchGo attempt url f retries =
      ([.acquire, .httpCall retries, .release], some c) := by
  cases f <;> rw [fetchGo, h]

/-- Sleep durations of the per-attempt event block followed by a tail. -/
theorem sleepsOf_block (r : ℕ) (l : List FetchEvent) :
    sleepsOf ([.acquire, .httpCall r, .release, .sleep (2 ^ r)] ++ l) =
      2 ^ r :: sleepsOf l := by
  simp [sleepsOf]

/-- HTTP-call count of the per-attempt event block followed by a tail. -/
theorem httpCallsOf_block (r : ℕ) (l : List FetchEvent) :
    httpCallsOf ([.acquire, .httpCall r, .release, .sleep (2 ^ r)] ++ l) =
      httpCallsOf l + 1 := by
  simp [httpCallsOf, Nat.add_comm]

/-- Shifting the base of the exponential backoff schedule by one step. -/
theorem backoff_schedule_shift (r n : ℕ) :
    (List.range (n + 1)).map (fun j => 2 ^ (r + j)) =
      2 ^ r :: (List.range n).map (fun j => 2 ^ (r + 1 + j)) := by
  rw [List.range_succ_eq_map, List.map_cons, List.map_map]
  refine congrArg₂ _ (by rw [Nat.add_zero]) ?_
  refine List.map_congr_left (fun j _ => ?_)
  simp only [Function.comp_apply]
  congr 1
  omega

/-- When every attempt from `r` through `r + f` fails, the retry loop burns
all its fuel: the sleeps are `2 ^ r, …, 2 ^ (r + f - 1)`, there are
`f + 1` HTTP calls, the final error log names the url and the result is
`none`. -/
theorem fetchGo_all_fail (attempt : ℕ → Option String) (url : String)
    (f r : ℕ) (hfail : ∀ i, r ≤ i → i ≤ r + f → attempt i = none) :
    sleepsOf (fetchGo attempt url f r).1 = (List.range f).map (fun j => 2 ^ (r + j)) ∧
    (fetchGo attempt url f r).2 = none ∧
    httpCallsOf (fetchGo attempt url f r).1 = f + 1 ∧
    FetchEvent.errorLog url ∈ (fetchGo attempt url f r).1 := by
  induction f generalizing r with
  | zero =>
    rw [fetchGo_fail_zero attempt url r (hfail r le_rfl (Nat.le_add_right r 0))]
    refine ⟨rfl, rfl, rfl, by simp⟩
  | succ f ih =>
    rw [fetchGo_fail_succ attempt url f r
      (hfail r le_rfl (Nat.le_add_right r (f + 1)))]
    have hih := ih (r + 1) (fun i h1 h2 => hfail i (Nat.le_of_succ_le h1) (by omega))
    refine ⟨?_, hih.2.1, ?_, ?_⟩
    · rw [sleepsOf_block, hih.1, backoff_schedule_shift]
    · rw [httpCallsOf_block, hih.2.2.1]
    · simp only [List.cons_append, List.nil_append, List.mem_cons]
      exact Or.inr (Or.inr (Or.inr (Or.inr hih.2.2.2)))

/-- When the attempts with retry counters `r, …, r + d - 1` fail and the
attempt with counter `r + d` succeeds within the fuel, the loop returns
that content after `d` backoff sleeps of `2 ^ r, …, 2 ^ (r + d - 1)`
seconds and `d + 1` HTTP calls. -/
theorem fetchGo_succeeds_after (attempt : ℕ → Option String) (url : String)
    (d : ℕ) : ∀ (f r : ℕ) (c : String), d ≤ f →
    (∀ i, r ≤ i → i < r + d → attempt i = none) → attempt (r + d) = some c →
    sleepsOf (fetchGo attempt url f r).1 = (List.range d).map (fun j => 2 ^ (r + j)) ∧
    (fetchGo attempt url f r).2 = some c ∧
    httpCallsOf (fetchGo attempt url f r).1 = d + 1 := by
  induction d with
  | zero =>
    intro f r c _ _ hsucc
    rw [Nat.add_zero] at hsucc
    rw [fetchGo_success attempt url f r c hsucc]
    exact ⟨rfl, rfl, rfl⟩
  | succ d ih =>
    intro f r c hdf hfail hsucc
    obtain ⟨f, rfl⟩ : ∃ f', f = f' + 1 := ⟨f - 1, by omega⟩
    rw [fetchGo_fail_succ attempt url f r (hfail r le_rfl (by omega))]
    have hih := ih f (r + 1) c (by omega)
      (fun i h1 h2 => hfail i (Nat.le_of_succ_le h1) (by omega))
      (by rw [show r + 1 + d = r + (d + 1) by omega]; exact hsucc)
    refine ⟨?_, hih.2.1, ?_⟩
    · rw [sleepsOf_block, hih.1, backoff_schedule_shift]
    · rw [httpCallsOf_block, hih.2.2]

/-- C8: the backoff schedule of `fetch_with_retry`.  With a maximum retry
count `m` and implicit base 1 s (`wait_time = 2 ** retries`), the wait
before the `(i+2)`-th attempt is `2 ^ i` seconds (attempt index starting
at 0), and attempts are capped at `m` retries (`m + 1` HTTP calls in
total).  If the first `k` attempts fail and attempt `k` succeeds, the
waits are `2^0, …, 2^(k-1)`; if every attempt up to the cap fails, the
waits are `2^0, …, 2^(m-1)`, after which the failure is reported with a
log line identifying the address and `None` is returned. -/
theorem fetch_with_retry_backoff_schedule (m : ℕ) (attempt : ℕ → Option String)
    (url : String) (k : ℕ) (hk : k ≤ m)
    (hfail : ∀ i, i < k → attempt i = none) :
    (k = m → attempt k = none →
      sleepsOf (fetch_with_retry m attempt url 0).1 =
        (List.range m).map (fun j => 2 ^ j) ∧
      (fetch_with_retry m attempt url 0).2 = none ∧
      httpCallsOf (fetch_with_retry m attempt url 0).1 = m + 1 ∧
      FetchEvent.errorLog url ∈ (fetch_with_retry m attempt url 0).1) ∧
    (∀ c, attempt k = some c →
      sleepsOf (fetch_with_retry m attempt url 0).1 =
        (List.range k).map (fun j => 2 ^ j) ∧
      (fetch_with_retry m attempt url 0).2 = some c ∧
      httpCallsOf (fetch_with_retry m attempt url 0).1 = k + 1) := by
  constructor
  · intro hkm hnone
    subst hkm
    have h := fetchGo_all_fail attempt url k 0
      (fun i h0 hik => by
        rcases Nat.lt_or_ge i k with h | h
        · exact hfail i h
        · have : i = k := by omega
          rw [this]; exact hnone)
    rw [fetch_with_retry, Nat.sub_zero]
    simpa using h
  · intro c hsucc
    have h := fetchGo_succeeds_after attempt url k m 0 c hk
      (fun i h0 hik => hfail i (by omega)) (by rw [Nat.zero_add]; exact hsucc)
    rw [fetch_with_retry, Nat.sub_zero]
    simpa using h

/-- Closed witness for `fetch_with_retry_backoff_schedule`, at the
configured default `crawler_max_retries = 3` and an environment whose
attempts all fail: the waits before attempts 2, 3 and 4 are 1 s, 2 s and
4 s, there are 4 HTTP calls, and the failure is returned as `none`
together with an error log naming the address. -/
theorem fetch_with_retry_backoff_schedule_witness :
    settings.crawler_max_retries = 3 ∧
    sleepsOf (fetch_with_retry 3 (fun _ => none) "http://x/b.html" 0).1 = [1, 2, 4] ∧
    (fetch_with_retry 3 (fun _ => none) "http://x/b.html" 0).2 = none ∧
    httpCallsOf (fetch_with_retry 3 (fun _ => none) "http://x/b.html" 0).1 = 4 ∧
    FetchEvent.errorLog "http://x/b.html" ∈
      (fetch_with_retry 3 (fun _ => none) "http://x/b.html" 0).1 := by
  have h := (fetch_with_retry_backoff_schedule 3 (fun _ => none) "http://x/b.html" 3
    le_rfl (fun i _ => rfl)).1 rfl rfl
  refine ⟨rfl, ?_, h.2.1, h.2.2.1, h.2.2.2⟩
  rw [h.1]
  decide

/-- C3 counterexample: a concrete fetch whose first attempt fails and whose
second succeeds.  Its trace contains a backoff sleep annotated with a
held-permit count of 0 — the semaphore permit is released (by exception
propagation out of the `async with` block) before the backoff sleep, so
the permit is not held across the whole retry sequence as the claim
states. -/
theorem fetch_permit_released_during_backoff :
    (annotateHeld 0
        (fetch_with_retry 3 (fun i => if i = 0 then none else some "html")
          "http://x/b.html" 0).1).any (fun p => p.2.isSleep) = true ∧
    ¬ (∀ p ∈ annotateHeld 0
        (fetch_with_retry 3 (fun i => if i = 0 then none else some "html")
          "http://x/b.html" 0).1, p.2.isSleep = true → 1 ≤ p.1) := by
  constructor
  · decide
  · decide

/-- C3 (amended): the semaphore permit is held per HTTP attempt, not for
the whole retry sequence: along any `fetch_with_retry` trace this logical
fetch holds exactly one permit at every HTTP call and zero permits at
every backoff sleep.  (Hence a limit of K permits bounds the number of
simultaneously in-flight HTTP calls at K, while fetches waiting in
backoff sleep hold no permit.) -/
theorem fetch_permit_per_attempt (m : ℕ) (attempt : ℕ → Option String)
    (url : String) (r : ℕ) (p : ℕ × FetchEvent)
    (hp : p ∈ annotateHeld 0 (fetch_with_retry m attempt url r).1) :
    (p.2.isSleep = true → p.1 = 0) ∧ (p.2.isHttp = true → p.1 = 1) := by
  rw [fetch_with_retry] at hp
  generalize m - r = f at hp
  induction f generalizing r with
  | zero =>
    rcases h : attempt r with _ | c
    · rw [fetchGo_fail_zero attempt url r h] at hp
      simp only [annotateHeld, List.mem_cons, List.not_mem_nil, or_false] at hp
      rcases hp with rfl | rfl | rfl | rfl <;> simp [FetchEvent.isSleep, FetchEvent.isHttp]
    · rw [fetchGo_success attempt url 0 r c h] at hp
      simp only [annotateHeld, List.mem_cons, List.not_mem_nil, or_false] at hp
      rcases hp with rfl | rfl | rfl <;> simp [FetchEvent.isSleep, FetchEvent.isHttp]
  | succ f ih =>
    rcases h : attempt r with _ | c
    · rw [fetchGo_fail_succ attempt url f r h] at hp
      simp only [List.cons_append, List.nil_append, annotateHeld, List.mem_cons] at hp
      rcases hp with rfl | rfl | rfl | rfl | hp
      · simp [FetchEvent.isSleep, FetchEvent.isHttp]
      · simp [FetchEvent.isSleep, FetchEvent.isHttp]
      · simp [FetchEvent.isSleep, FetchEvent.isHttp]
      · simp [FetchEvent.isSleep, FetchEvent.isHttp]
      · exact ih (r + 1) hp
    · rw [fetchGo_success attempt url (f + 1) r c h] at hp
      simp only [annotateHeld, List.mem_cons, List.not_mem_nil, or_false] at hp
      rcases hp with rfl | rfl | rfl <;> simp [FetchEvent.isSleep, FetchEvent.isHttp]

/-- Closed witness for `fetch_permit_per_attempt`: on the concrete trace of
a fetch that fails once and then succeeds, the sleep event carries a held
count of 0 and the first HTTP call a held count of 1. -/
theorem fetch_permit_per_attempt_witness :
    ((0, FetchEvent.sleep 1) ∈ annotateHeld 0
        (fetch_with_retry 3 (fun i => if i = 0 then none else some "html")
          "http://x/b.html" 0).1 ∧ (0, FetchEvent.sleep 1).1 = 0) ∧
    ((1, FetchEvent.httpCall 0) ∈ annotateHeld 0
        (fetch_with_retry 3 (fun i => if i = 0 then none else some "html")
          "http://x/b.html" 0).1 ∧ (1, FetchEvent.httpCall 0).1 = 1) := by
  refine ⟨⟨by decide, ?_⟩, ⟨by decide, ?_⟩⟩
  · exact (fetch_permit_per_attempt 3 (fun i => if i = 0 then none else some "html")
      "http://x/b.html" 0 (0, FetchEvent.sleep 1) (by decide)).1 rfl
  · exact (fetch_permit_per_attempt 3 (fun i => if i = 0 then none else some "html")
      "http://x/b.html" 0 (1, FetchEvent.httpCall 0) (by decide)).2 rfl

/-! ## Crawl orchestration (`src/crawler/scraper.py`)

The crawl loop of `BookScraper.crawl_all_books` is embedded as explicit
state passing over the scraper's mutable progress fields
(`total_books`, `completed_books`, `failed_urls`).  The network, parser
and storage outcomes of each `scrape_book` task are abstracted into one
boolean per task (`true` = the book was fetched, parsed and upserted;
`false` = any of the failure paths, all of which add the url to
`failed_urls` and leave the completed count unchanged); the outcome of
the task at position `i` of the task list is `outcome i`.  Within one
`asyncio.gather` batch the updates commute (each task performs one
increment or one set-insertion), so folding the batch in list order is
the batch's deterministic net effect.  `CrawlProgress.failed_pages` is
`list(self.failed_urls)` in the source — a set rendered in arbitrary
order — and is therefore modelled as the `Finset` itself; the wall-clock
`timestamp` field is omitted. -/

/-- `CrawlProgress` of `src/api/models.py` (timestamp omitted,
`failed_pages` kept as the set it is rendered from). -/
structure CrawlProgress where
  total_pages : ℕ
  completed_pages : ℕ
  failed_pages : Finset String
  status : CrawlStatus
deriving DecidableEq

/-- The progress-tracking fields of a `BookScraper` instance. -/
structure ScraperState where
  total_books : ℕ
  completed_books : ℕ
  failed_urls : Finset String
deriving DecidableEq

/-- Effect of one `scrape_book(client, url)` task on the scraper state
(`src/crawler/scraper.py` lines 70–134): on success `completed_books` is
incremented; on any failure (fetch returned `None`, parse failed, upsert
failed, exception) the url is added to `failed_urls`. -/
def scrape_book (s : ScraperState) (url : String) (ok : Bool) : ScraperState :=
  if ok then { s with completed_books := s.completed_books + 1 }
  else { s with failed_urls := insert url s.failed_urls }

/-- `tasks[i:i + batch_size]` slicing of the loop
`for i in range(0, len(tasks), batch_size)`: the task list cut into
batches of `bs` (the final batch may be shorter).  The recursion is made
structural on a fuel initialised to the list length, which strictly
bounds the number of loop iterations when `bs > 0`; a batch size of `0`
is never used (`batch_size = 50`) and is given the harmless meaning of a
single batch. -/
def toBatchesGo (α : Type) (bs : ℕ) : ℕ → List α → List (List α)
  | _, [] => []
  | 0, x :: xs => [x :: xs]
  | fuel + 1, x :: xs =>
    if _h : bs = 0 then [x :: xs]
    else (x :: xs).take bs :: toBatchesGo α bs fuel ((x :: xs).drop bs)

def toBatches (α : Type) (bs : ℕ) (l : List α) : List (List α) :=
  toBatchesGo α bs l.length l

/-- One `await asyncio.gather(*batch)`: the net effect of a batch of
`scrape_book` tasks on the scraper state. -/
def processBatch (s : ScraperState) (b : List (String × Bool)) : ScraperState :=
  b.foldl (fun s t => scrape_book s t.1 t.2) s

/-- The `CrawlProgress` snapshot built from the current scraper state
(`src/crawler/scraper.py` lines 209–214 and 218–224): status `PARTIAL`
exactly when the failed set is non-empty, else `SUCCESS`. -/
def snapshotOf (s : ScraperState) : CrawlProgress :=
  { total_pages := s.total_books,
    completed_pages := s.completed_books,
    failed_pages := s.failed_urls,
    status := if s.failed_urls ≠ ∅ then .partialRun else .success }

/-- The scraper states observed at the end of each batch iteration. -/
def batchStates (s : ScraperState) : List (List (String × Bool)) → List ScraperState
  | [] => []
  | b :: bs => processBatch s b :: batchStates (processBatch s b) bs

/-- The resume filter of `crawl_all_books` (`src/crawler/scraper.py`
lines 189–197): `[url for url in book_urls if url not in existing_urls]`,
where `existing_urls` is the set of `url` keys already in the store. -/
def resumeFilter (book_urls : List String) (existing_urls : Finset String) :
    List String :=
  book_urls.filter (fun u => decide (u ∉ existing_urls))

/-- The task list of a run: the discovered urls, filtered by the resume
policy when `resume` is set (`tasks = [self.scrape_book(client, url) for
url in book_urls]`), each paired with its abstracted outcome. -/
def crawlTasks (resume : Bool) (discovered : List String)
    (stored : Finset String) (outcome : ℕ → Bool) : List (String × Bool) :=
  let book_urls := if resume then resumeFilter discovered stored else discovered
  book_urls.enum.map (fun p => (p.2, outcome p.1))

/-- The batch size `batch_size = 50` of `crawl_all_books`. -/
def batch_size : ℕ := 50

/-- `BookScraper.crawl_all_books` (`src/crawler/scraper.py` lines
169–232), given the discovered url list: the sequence of `CrawlProgress`
snapshots persisted by `save_crawl_progress`, one after every batch and
one final snapshot after the loop.  `total_books` is set to the length
of the discovered list before the resume filter is applied; a fresh
scraper starts with `completed_books = 0` and an empty failed set. -/
def crawl_all_books (resume : Bool) (discovered : List String)
    (stored : Finset String) (outcome : ℕ → Bool) : List CrawlProgress :=
  let s0 : ScraperState := ⟨discovered.length, 0, ∅⟩
  let tasks := crawlTasks resume discovered stored outcome
  let states := batchStates s0 (toBatches _ batch_size tasks)
  states.map snapshotOf ++ [snapshotOf (states.getLastD s0)]

/-! ## Discovery (`BookScraper.get_all_book_urls`)

Discovery walks listing pages.  The environment is a function from a
page url to `none` (that page could not be fetched after retries) or to
the parser's view of the page: the book links on it and the optional
next-page url.  The `while current_url:` loop is bounded by a page
budget `fuel`; the real site's pagination is finite and acyclic, and
every claim below is insensitive to the budget. -/

structure PageData where
  links : List String
  nextPage : Option String

/-- The starting catalog address,
`urljoin(self.base_url, "catalogue/page-1.html")` with the default
`base_url`. -/
def catalogStartUrl : String := "https://books.toscrape.com/catalogue/page-1.html"

/-- The `while current_url:` loop of `get_all_book_urls`
(`src/crawler/scraper.py` lines 146–167): fetch the current page; on
failure log and `break`, returning everything discovered so far; on
success extend the url accumulator with the page's links and move to the
extracted next-page url (`none` ends the loop). -/
def discoverLoop (fetchPage : String → Option PageData) :
    ℕ → Option String → List String → List String
  | _, none, acc => acc
  | 0, some _, acc => acc
  | f + 1, some url, acc =>
    match fetchPage url with
    | none => acc
    | some pd => discoverLoop fetchPage f pd.nextPage (acc ++ pd.links)

/-- `BookScraper.get_all_book_urls`: walk the catalog from
`catalogue/page-1.html`. -/
def get_all_book_urls (fetchPage : String → Option PageData) (fuel : ℕ) :
    List String :=
  discoverLoop fetchPage fuel (some catalogStartUrl) []

/-- The whole run `crawl_all_books` including its discovery phase. -/
def crawl_run (fetchPage : String → Option PageData) (fuel : ℕ) (resume : Bool)
    (stored : Finset String) (outcome : ℕ → Bool) : List CrawlProgress :=
  crawl_all_books resume (get_all_book_urls fetchPage fuel) stored outcome

end BooksCrawl

namespace BooksCrawl

/-! ### Lemmas about the crawl state machine -/

/-- The batches concatenate back to the list, whatever the fuel. -/
theorem toBatchesGo_flatten (α : Type) (bs : ℕ) :
    ∀ (fuel : ℕ) (l : List α), (toBatchesGo α bs fuel l).flatten = l
  | fuel, [] => by cases fuel <;> rfl
  | 0, x :: xs => by simp [toBatchesGo]
  | fuel + 1, x :: xs => by
    rw [toBatchesGo]
    by_cases h : bs = 0
    · rw [dif_pos h]
      simp
    · rw [dif_neg h]
      simp only [List.flatten_cons]
      rw [toBatchesGo_flatten α bs fuel ((x :: xs).drop bs)]
      exact List.take_append_drop _ _

/-- The batches concatenate back to the task list. -/
theorem toBatches_flatten (α : Type) (bs : ℕ) (l : List α) :
    (toBatches α bs l).flatten = l :=
  toBatchesGo_flatten α bs l.length l

/-- `scrape_book` never touches `total_books`. -/
theorem scrape_book_total (s : ScraperState) (u : String) (ok : Bool) :
    (scrape_book s u ok).total_books = s.total_books := by
  cases ok <;> simp [scrape_book]

/-- `scrape_book` never decreases the completed count. -/
theorem scrape_book_completed_le (s : ScraperState) (u : String) (ok : Bool) :
    s.completed_books ≤ (scrape_book s u ok).completed_books := by
  cases ok <;> simp [scrape_book]

/-- One task adds at most one unit to completed-plus-failed. -/
theorem scrape_book_budget (s : ScraperState) (u : String) (ok : Bool) :
    (scrape_book s u ok).completed_books + (scrape_book s u ok).failed_urls.card ≤
      s.completed_books + s.failed_urls.card + 1 := by
  cases ok
  · have e1 : (scrape_book s u false).completed_books = s.completed_books := rfl
    have e2 : (scrape_book s u false).failed_urls = insert u s.failed_urls := rfl
    rw [e1, e2]
    have := Finset.card_insert_le u s.failed_urls
    omega
  · have e1 : (scrape_book s u true).completed_books = s.completed_books + 1 := rfl
    have e2 : (scrape_book s u true).failed_urls = s.failed_urls := rfl
    rw [e1, e2]
    omega

/-- A batch never touches `total_books`. -/
theorem processBatch_total (b : List (String × Bool)) :
    ∀ s : ScraperState, (processBatch s b).total_books = s.total_books := by
  induction b with
  | nil => intro s; rfl
  | cons t b ih =>
    intro s
    rw [processBatch, List.foldl_cons]
    exact (ih (scrape_book s t.1 t.2)).trans (scrape_book_total s t.1 t.2)

/-- A batch never decreases the completed count. -/
theorem processBatch_completed_le (b : List (String × Bool)) :
    ∀ s : ScraperState, s.completed_books ≤ (processBatch s b).completed_books := by
  induction b with
  | nil => intro s; exact le_rfl
  | cons t b ih =>
    intro s
    rw [processBatch, List.foldl_cons]
    exact (scrape_book_completed_le s t.1 t.2).trans (ih (scrape_book s t.1 t.2))

/-- A batch of `n` tasks adds at most `n` to completed-plus-failed. -/
theorem processBatch_budget (b : List (String × Bool)) :
    ∀ s : ScraperState,
      (processBatch s b).completed_books + (processBatch s b).failed_urls.card ≤
        s.completed_books + s.failed_urls.card + b.length := by
  induction b with
  | nil => intro s; simp [processBatch]
  | cons t b ih =>
    intro s
    rw [processBatch, List.foldl_cons]
    have h1 := ih (scrape_book s t.1 t.2)
    have h2 := scrape_book_budget s t.1 t.2
    rw [processBatch] at h1
    simp only [List.length_cons]
    omega

/-- Every state observed at a batch boundary keeps the initial
`total_books` and stays within the budget of all tasks handed to the
loop. -/
theorem batchStates_invariant (bs : List (List (String × Bool))) :
    ∀ (s : ScraperState), ∀ s' ∈ batchStates s bs,
      s'.total_books = s.total_books ∧
      s'.completed_books + s'.failed_urls.card ≤
        s.completed_books + s.failed_urls.card + bs.flatten.length := by
  induction bs with
  | nil => intro s s' h; simp [batchStates] at h
  | cons b bs ih =>
    intro s s' h
    rw [batchStates] at h
    simp only [List.mem_cons] at h
    simp only [List.flatten_cons, List.length_append]
    rcases h with rfl | h
    · exact ⟨processBatch_total b s, by have := processBatch_budget b s; omega⟩
    · have h1 := ih (processBatch s b) s' h
      have h2 := processBatch_budget b s
      have h3 := processBatch_total b s
      exact ⟨h1.1.trans h3, by omega⟩

/-- The state after the batch loop is the fold over all batches. -/
theorem batchStates_getLastD (bs : List (List (String × Bool))) :
    ∀ s : ScraperState,
      (batchStates s bs).getLastD s = bs.foldl processBatch s := by
  induction bs with
  | nil => intro s; rfl
  | cons b bs ih =>
    intro s
    rw [batchStates, List.foldl_cons, ← ih (processBatch s b), List.getLastD_cons]

/-- Folding batch-by-batch equals folding task-by-task over the
concatenation. -/
theorem foldl_processBatch_join (bs : List (List (String × Bool))) :
    ∀ s : ScraperState,
      bs.foldl processBatch s =
        bs.flatten.foldl (fun s t => scrape_book s t.1 t.2) s := by
  induction bs with
  | nil => intro s; rfl
  | cons b bs ih =>
    intro s
    rw [List.foldl_cons, List.flatten_cons, List.foldl_append, ih]
    rfl

/-- The completed counts along the batch boundaries form a non-decreasing
chain from the initial state. -/
theorem batchStates_chain (bs : List (List (String × Bool))) :
    ∀ s : ScraperState,
      List.Chain' (fun a b : ScraperState => a.completed_books ≤ b.completed_books)
        (s :: batchStates s bs) := by
  induction bs with
  | nil => intro s; simp [batchStates]
  | cons b bs ih =>
    intro s
    rw [batchStates]
    exact List.chain'_cons.mpr ⟨processBatch_completed_le b s, ih (processBatch s b)⟩

/-- Processing a task list whose urls are distinct and disjoint from the
already-failed set adds exactly one unit per task to
completed-plus-failed. -/
theorem foldl_scrape_book_exact (ts : List (String × Bool)) :
    ∀ s : ScraperState, (ts.map Prod.fst).Nodup →
      (∀ u ∈ ts.map Prod.fst, u ∉ s.failed_urls) →
      (ts.foldl (fun s t => scrape_book s t.1 t.2) s).completed_books +
          (ts.foldl (fun s t => scrape_book s t.1 t.2) s).failed_urls.card =
        s.completed_books + s.failed_urls.card + ts.length := by
  induction ts with
  | nil => intro s _ _; rfl
  | cons t ts ih =>
    intro s hnd hdisj
    rw [List.map_cons] at hnd
    have hnd2 := List.nodup_cons.mp hnd
    have hdisj_head : t.1 ∉ s.failed_urls := hdisj t.1 (by simp)
    have hdisj_tail : ∀ u ∈ ts.map Prod.fst, u ∉ s.failed_urls :=
      fun u hu => hdisj u (by simp [hu])
    rw [List.foldl_cons, List.length_cons]
    cases hok : t.2
    · have e1 : (scrape_book s t.1 false).completed_books = s.completed_books := rfl
      have e2 : (scrape_book s t.1 false).failed_urls = insert t.1 s.failed_urls := rfl
      have hins : (insert t.1 s.failed_urls).card = s.failed_urls.card + 1 :=
        Finset.card_insert_of_not_mem hdisj_head
      have hrec := ih (scrape_book s t.1 false) hnd2.2
        (fun u hu => by
          rw [e2, Finset.mem_insert]
          push_neg
          exact ⟨fun heq => hnd2.1 (heq ▸ hu), hdisj_tail u hu⟩)
      rw [hrec, e1, e2, hins]
      omega
    · have e1 : (scrape_book s t.1 true).completed_books = s.completed_books + 1 := rfl
      have e2 : (scrape_book s t.1 true).failed_urls = s.failed_urls := rfl
      have hrec := ih (scrape_book s t.1 true) hnd2.2
        (fun u hu => by rw [e2]; exact hdisj_tail u hu)
      rw [hrec, e1, e2]
      omega

/-- The urls of the task list are the discovered urls after the resume
filter. -/
theorem crawlTasks_map_fst (resume : Bool) (discovered : List String)
    (stored : Finset String) (outcome : ℕ → Bool) :
    (crawlTasks resume discovered stored outcome).map Prod.fst =
      if resume then resumeFilter discovered stored else discovered := by
  rw [crawlTasks, List.map_map]
  have : (Prod.fst ∘ fun p : ℕ × String => (p.2, outcome p.1)) = Prod.snd := by
    funext p; rfl
  rw [this, List.enum_map_snd]

/-- A run never has more tasks than discovered urls. -/
theorem crawlTasks_length_le (resume : Bool) (discovered : List String)
    (stored : Finset String) (outcome : ℕ → Bool) :
    (crawlTasks resume discovered stored outcome).length ≤ discovered.length := by
  have h : (crawlTasks resume discovered stored outcome).length =
      ((crawlTasks resume discovered stored outcome).map Prod.fst).length := by
    rw [List.length_map]
  rw [h, crawlTasks_map_fst]
  cases resume
  · simp
  · simp only [if_true]
    exact (List.length_filter_le _ _)

/-- The last element of a non-empty list with a default is a member. -/
theorem getLastD_mem_of_ne_nil (l : List ScraperState) (d : ScraperState)
    (h : l ≠ []) : l.getLastD d ∈ l := by
  induction l generalizing d with
  | nil => exact absurd rfl h
  | cons x xs ih =>
    rw [List.getLastD_cons]
    cases hx : xs with
    | nil => simp
    | cons y ys =>
      rw [hx] at ih
      exact List.mem_cons_of_mem x (ih x (by simp))

/-- Every snapshot persisted by a run is the snapshot of a reachable
scraper state: its `total_books` is the discovered count and its
completed-plus-failed budget is bounded by it. -/
theorem crawl_mem_cases (resume : Bool) (discovered : List String)
    (stored : Finset String) (outcome : ℕ → Bool) (p : CrawlProgress)
    (hp : p ∈ crawl_all_books resume discovered stored outcome) :
    ∃ s' : ScraperState, p = snapshotOf s' ∧
      s'.total_books = discovered.length ∧
      s'.completed_books + s'.failed_urls.card ≤ discovered.length := by
  have hbudget : ∀ s' ∈ batchStates (⟨discovered.length, 0, ∅⟩ : ScraperState)
      (toBatches _ batch_size (crawlTasks resume discovered stored outcome)),
      s'.total_books = discovered.length ∧
      s'.completed_books + s'.failed_urls.card ≤ discovered.length := by
    intro s' hs'
    have h := batchStates_invariant _ _ s' hs'
    rw [toBatches_flatten] at h
    refine ⟨h.1, le_trans (by simpa using h.2) ?_⟩
    exact crawlTasks_length_le resume discovered stored outcome
  rw [crawl_all_books] at hp
  simp only [List.mem_append, List.mem_map, List.mem_singleton] at hp
  rcases hp with ⟨s', hs', rfl⟩ | rfl
  · exact ⟨s', rfl, (hbudget s' hs').1, (hbudget s' hs').2⟩
  · by_cases hne : batchStates (⟨discovered.length, 0, ∅⟩ : ScraperState)
        (toBatches _ batch_size (crawlTasks resume discovered stored outcome)) = []
    · rw [hne]
      exact ⟨⟨discovered.length, 0, ∅⟩, rfl, rfl, by simp⟩
    · have hmem := getLastD_mem_of_ne_nil _
        (⟨discovered.length, 0, ∅⟩ : ScraperState) hne
      exact ⟨_, rfl, (hbudget _ hmem).1, (hbudget _ hmem).2⟩

/-- The status a snapshot records is `PARTIAL` exactly when its failed
set is non-empty, and never `FAILED`. -/
theorem snapshotOf_status (s : ScraperState) :
    ((snapshotOf s).status = CrawlStatus.partialRun ↔ (snapshotOf s).failed_pages ≠ ∅) ∧
    (snapshotOf s).status ≠ CrawlStatus.failed := by
  by_cases h : s.failed_urls ≠ ∅
  · constructor
    · rw [show (snapshotOf s).status = CrawlStatus.partialRun from by
        rw [snapshotOf]; exact if_pos h]
      exact ⟨fun _ => h, fun _ => rfl⟩
    · rw [show (snapshotOf s).status = CrawlStatus.partialRun from by
        rw [snapshotOf]; exact if_pos h]
      intro hc
      exact CrawlStatus.noConfusion hc
  · constructor
    · rw [show (snapshotOf s).status = CrawlStatus.success from by
        rw [snapshotOf]; exact if_neg h]
      constructor
      · intro hc; exact CrawlStatus.noConfusion hc
      · intro hc; exact absurd hc h
    · rw [show (snapshotOf s).status = CrawlStatus.success from by
        rw [snapshotOf]; exact if_neg h]
      intro hc
      exact CrawlStatus.noConfusion hc

/-- Snapshots taken along a completed-monotone chain of states, followed
by the snapshot of the last state, form a completed-monotone chain. -/
theorem chain_snapshots (states : List ScraperState) :
    ∀ s0 : ScraperState,
      List.Chain' (fun a b : ScraperState => a.completed_books ≤ b.completed_books)
        (s0 :: states) →
      List.Chain'
        (fun a b : CrawlProgress => a.completed_pages ≤ b.completed_pages)
        (states.map snapshotOf ++ [snapshotOf (states.getLastD s0)]) := by
  induction states with
  | nil =>
    intro s0 _
    simp
  | cons z zs ih =>
    intro s0 hchain
    rw [List.getLastD_cons, List.map_cons, List.cons_append]
    refine List.chain'_cons'.mpr ⟨?_, ih z (List.chain'_cons.mp hchain).2⟩
    intro y hy
    cases hzs : zs with
    | nil =>
      rw [hzs] at hy
      simp only [List.map_nil, List.nil_append, List.getLastD_nil, List.head?_cons,
        Option.mem_def, Option.some.injEq] at hy
      subst hy
      exact le_rfl
    | cons w ws =>
      rw [hzs] at hy
      simp only [List.map_cons, List.cons_append, List.head?_cons, Option.mem_def,
        Option.some.injEq] at hy
      subst hy
      have h2 := (List.chain'_cons.mp hchain).2
      rw [hzs] at h2
      exact (List.chain'_cons.mp h2).1

end BooksCrawl

namespace BooksCrawl

/-! ### Theorems for the crawl orchestrator -/

/-- C4: resume correctness.  The addresses scheduled for fetching in a
`resume=true` run are exactly the discovered list filtered by the stored
keys: an address is scheduled iff it was discovered and is not already
present in the store — the stored records' staleness never enters the
condition. -/
theorem resume_processes_set_difference (discovered : List String)
    (stored : Finset String) (outcome : ℕ → Bool) :
    ((crawlTasks true discovered stored outcome).map Prod.fst =
      resumeFilter discovered stored) ∧
    (∀ u, u ∈ (crawlTasks true discovered stored outcome).map Prod.fst ↔
      (u ∈ discovered ∧ u ∉ stored)) := by
  have h := crawlTasks_map_fst true discovered stored outcome
  rw [if_pos rfl] at h
  refine ⟨h, fun u => ?_⟩
  rw [h, resumeFilter, List.mem_filter]
  simp

/-- C7: progress monotonicity.  Across every run the `completed_pages`
field of the successive persisted snapshots is non-decreasing: no
observer of the progress document can see the completed count go
backward. -/
theorem crawl_completed_monotone (resume : Bool) (discovered : List String)
    (stored : Finset String) (outcome : ℕ → Bool) :
    List.Chain' (fun a b : CrawlProgress => a.completed_pages ≤ b.completed_pages)
      (crawl_all_books resume discovered stored outcome) := by
  exact chain_snapshots _ _ (batchStates_chain _ _)

/-- C10: the progress schema admits a `FAILED` status, but every snapshot
a run persists — intermediate or final — has status `SUCCESS` or
`PARTIAL`, chosen solely by whether the failed set is non-empty;
`FAILED` is never written. -/
theorem crawl_status_never_failed (resume : Bool) (discovered : List String)
    (stored : Finset String) (outcome : ℕ → Bool) (p : CrawlProgress)
    (hp : p ∈ crawl_all_books resume discovered stored outcome) :
    p.status ≠ CrawlStatus.failed ∧
    (p.status = CrawlStatus.partialRun ↔ p.failed_pages ≠ ∅) := by
  obtain ⟨s', rfl, -, -⟩ := crawl_mem_cases resume discovered stored outcome p hp
  exact ⟨(snapshotOf_status s').2, (snapshotOf_status s').1⟩

/-- Closed witness for `crawl_status_never_failed`: in a one-book run in
which the single item fails, both persisted snapshots carry status
`PARTIAL` (not `FAILED`). -/
theorem crawl_status_never_failed_witness :
    (⟨1, 0, {"http://x/a.html"}, CrawlStatus.partialRun⟩ : CrawlProgress) ∈
      crawl_all_books false ["http://x/a.html"] ∅ (fun _ => false) ∧
    (CrawlStatus.partialRun ≠ CrawlStatus.failed) := by
  constructor
  · decide
  · exact (crawl_status_never_failed false ["http://x/a.html"] ∅ (fun _ => false)
      ⟨1, 0, {"http://x/a.html"}, CrawlStatus.partialRun⟩ (by decide)).1

/-- C6 counterexample: a `resume=true` run whose single discovered
address is already stored.  The run fully finishes (nothing is left to
process), yet its final snapshot has `completed_pages = 0`,
`failed_pages = ∅` and `total_pages = 1`: the claimed equality
`completed_pages + len(failed_pages) = total_pages` at the end of a run
fails, because `total_books` is set to the discovered count before the
resume filter removes the already-stored addresses. -/
theorem crawl_final_equality_fails_on_resume :
    (crawl_all_books true ["http://x/a.html"] {"http://x/a.html"}
        (fun _ => true)).getLast? =
      some ⟨1, 0, ∅, CrawlStatus.success⟩ ∧
    ¬ ((0 : ℕ) + (∅ : Finset String).card = 1) := by
  constructor
  · decide
  · decide

/-- C6 (amended): every snapshot a run persists satisfies
`completed_pages ≤ total_pages`, has status `PARTIAL` iff its failed set
is non-empty, and satisfies
`completed_pages + len(failed_pages) ≤ total_pages`; the final snapshot
attains equality when the run fully finishes, provided it is not a
resume run and the discovered addresses are pairwise distinct (a resume
run leaves `total_pages` at the unfiltered discovered count, and a
repeated address can fail twice while entering the failed set once). -/
theorem crawl_progress_invariants (resume : Bool) (discovered : List String)
    (stored : Finset String) (outcome : ℕ → Bool) :
    (∀ p ∈ crawl_all_books resume discovered stored outcome,
      p.completed_pages ≤ p.total_pages ∧
      (p.status = CrawlStatus.partialRun ↔ p.failed_pages ≠ ∅) ∧
      p.completed_pages + p.failed_pages.card ≤ p.total_pages) ∧
    (resume = false → discovered.Nodup →
      ∀ p, (crawl_all_books resume discovered stored outcome).getLast? = some p →
        p.completed_pages + p.failed_pages.card = p.total_pages) := by
  constructor
  · intro p hp
    obtain ⟨s', rfl, htot, hle⟩ := crawl_mem_cases resume discovered stored outcome p hp
    have e1 : (snapshotOf s').completed_pages = s'.completed_books := rfl
    have e2 : (snapshotOf s').failed_pages = s'.failed_urls := rfl
    have e3 : (snapshotOf s').total_pages = s'.total_books := rfl
    refine ⟨?_, (snapshotOf_status s').1, ?_⟩
    · rw [e1, e3, htot]
      omega
    · rw [e1, e2, e3, htot]
      omega
  · intro hres hnd p hp
    subst hres
    have hlast : (crawl_all_books false discovered stored outcome).getLast? =
        some (snapshotOf
          ((batchStates (⟨discovered.length, 0, ∅⟩ : ScraperState)
            (toBatches _ batch_size
              (crawlTasks false discovered stored outcome))).getLastD
            ⟨discovered.length, 0, ∅⟩)) := by
      rw [crawl_all_books]
      exact List.getLast?_concat _
    rw [hlast] at hp
    obtain rfl := Option.some.inj hp
    rw [batchStates_getLastD, foldl_processBatch_join, toBatches_flatten]
    have hfst := crawlTasks_map_fst false discovered stored outcome
    rw [if_neg (by simp)] at hfst
    have hexact := foldl_scrape_book_exact
      (crawlTasks false discovered stored outcome)
      ⟨discovered.length, 0, ∅⟩
      (by rw [hfst]; exact hnd)
      (by rw [hfst]; intro u _; exact Finset.not_mem_empty u)
    have hlen : (crawlTasks false discovered stored outcome).length =
        discovered.length := by
      have h := congrArg List.length hfst
      rw [List.length_map] at h
      exact h
    have htotconst : ∀ (ts : List (String × Bool)) (s : ScraperState),
        (ts.foldl (fun s t => scrape_book s t.1 t.2) s).total_books = s.total_books := by
      intro ts
      induction ts with
      | nil => intro s; rfl
      | cons t ts ih =>
        intro s
        rw [List.foldl_cons]
        exact (ih _).trans (scrape_book_total s t.1 t.2)
    have hexact' :
        ((crawlTasks false discovered stored outcome).foldl
            (fun s t => scrape_book s t.1 t.2)
            (⟨discovered.length, 0, ∅⟩ : ScraperState)).completed_books +
          ((crawlTasks false discovered stored outcome).foldl
            (fun s t => scrape_book s t.1 t.2)
            (⟨discovered.length, 0, ∅⟩ : ScraperState)).failed_urls.card =
        0 + (∅ : Finset String).card +
          (crawlTasks false discovered stored outcome).length := hexact
    have hcard0 : (∅ : Finset String).card = 0 := Finset.card_empty
    have e1 :
        (snapshotOf ((crawlTasks false discovered stored outcome).foldl
          (fun s t => scrape_book s t.1 t.2)
          (⟨discovered.length, 0, ∅⟩ : ScraperState))).completed_pages =
        ((crawlTasks false discovered stored outcome).foldl
          (fun s t => scrape_book s t.1 t.2)
          (⟨discovered.length, 0, ∅⟩ : ScraperState)).completed_books := rfl
    have e2 :
        (snapshotOf ((crawlTasks false discovered stored outcome).foldl
          (fun s t => scrape_book s t.1 t.2)
          (⟨discovered.length, 0, ∅⟩ : ScraperState))).failed_pages.card =
        ((crawlTasks false discovered stored outcome).foldl
          (fun s t => scrape_book s t.1 t.2)
          (⟨discovered.length, 0, ∅⟩ : ScraperState)).failed_urls.card := rfl
    have e3 :
        (snapshotOf ((crawlTasks false discovered stored outcome).foldl
          (fun s t => scrape_book s t.1 t.2)
          (⟨discovered.length, 0, ∅⟩ : ScraperState))).total_pages =
        ((crawlTasks false discovered stored outcome).foldl
          (fun s t => scrape_book s t.1 t.2)
          (⟨discovered.length, 0, ∅⟩ : ScraperState)).total_books := rfl
    have e4 :=
      htotconst (crawlTasks false discovered stored outcome)
        (⟨discovered.length, 0, ∅⟩ : ScraperState)
    have e5 : (⟨discovered.length, 0, ∅⟩ : ScraperState).total_books =
        discovered.length := rfl
    rw [e1, e2, e3, e4, e5]
    omega

/-- Closed witness for `crawl_progress_invariants`: a concrete
two-address non-resume run with one success and one failure; its final
snapshot is `{total: 2, completed: 1, failed: ["http://x/b.html"],
status: PARTIAL}` and attains `completed + card(failed) = total`. -/
theorem crawl_progress_invariants_witness :
    ((⟨2, 1, {"http://x/b.html"}, CrawlStatus.partialRun⟩ : CrawlProgress) ∈
      crawl_all_books false ["http://x/a.html", "http://x/b.html"] ∅
        (fun i => i == 0) ∧
      (1 : ℕ) ≤ 2 ∧ 1 + ({"http://x/b.html"} : Finset String).card ≤ 2) ∧
    ((crawl_all_books false ["http://x/a.html", "http://x/b.html"] ∅
        (fun i => i == 0)).getLast? =
      some ⟨2, 1, {"http://x/b.html"}, CrawlStatus.partialRun⟩ ∧
      1 + ({"http://x/b.html"} : Finset String).card = 2) := by
  have hinv := crawl_progress_invariants false
    ["http://x/a.html", "http://x/b.html"] ∅ (fun i => i == 0)
  constructor
  · have h := hinv.1 ⟨2, 1, {"http://x/b.html"}, CrawlStatus.partialRun⟩ (by decide)
    exact ⟨by decide, h.1, h.2.2⟩
  · refine ⟨by decide, ?_⟩
    exact hinv.2 rfl (by decide) ⟨2, 1, {"http://x/b.html"}, CrawlStatus.partialRun⟩
      (by decide)

/-- C1 counterexample: an environment in which no page — in particular
the first catalog page — can be fetched (every fetch exhausts its
retries and yields `None`).  Discovery `break`s with an empty url list,
`crawl_all_books` proceeds normally with zero tasks and the run
completes, persisting one final snapshot whose status is `SUCCESS` —
the run neither propagates a failure nor terminates fatally, contrary
to the claim. -/
theorem first_page_failure_completes_success :
    (fun _ : String => (none : Option PageData)) catalogStartUrl = none ∧
    crawl_run (fun _ => none) 20 false ∅ (fun _ => true) =
      [⟨0, 0, ∅, CrawlStatus.success⟩] ∧
    (⟨0, 0, ∅, CrawlStatus.success⟩ : CrawlProgress).status =
      CrawlStatus.success := by
  refine ⟨rfl, ?_, rfl⟩
  decide

/-- C1 (amended): a first-page discovery failure is handled softly, the
same way as any later page: `get_all_book_urls` logs, `break`s and
returns the empty list, and `crawl_all_books` then runs over zero items
and completes normally, persisting exactly one final snapshot
`{total: 0, completed: 0, failed: [], status: SUCCESS}` — the failure
does not propagate and the run does not abort. -/
theorem first_page_failure_soft (fetchPage : String → Option PageData)
    (fuel : ℕ) (resume : Bool) (stored : Finset String) (outcome : ℕ → Bool)
    (h : fetchPage catalogStartUrl = none) :
    get_all_book_urls fetchPage fuel = [] ∧
    crawl_run fetchPage fuel resume stored outcome =
      [⟨0, 0, ∅, CrawlStatus.success⟩] := by
  have hd : get_all_book_urls fetchPage fuel = [] := by
    rw [get_all_book_urls]
    cases fuel with
    | zero => rfl
    | succ f =>
      rw [discoverLoop, h]
  refine ⟨hd, ?_⟩
  rw [crawl_run, hd]
  cases resume <;>
    simp [crawl_all_books, crawlTasks, resumeFilter, batchStates, toBatches,
      toBatchesGo, snapshotOf, batch_size]

/-- Closed witness for `first_page_failure_soft`, at the concrete
environment in which every fetch fails. -/
theorem first_page_failure_soft_witness :
    get_all_book_urls (fun _ => none) 20 = [] ∧
    crawl_run (fun _ => none) 20 true {"http://x/a.html"} (fun _ => true) =
      [⟨0, 0, ∅, CrawlStatus.success⟩] :=
  first_page_failure_soft (fun _ => none) 20 true {"http://x/a.html"}
    (fun _ => true) rfl

/-! ## Content fingerprinting (`src/crawler/storage.py`,
`BookStorage.generate_content_hash`)

`generate_content_hash` builds a five-key dictionary of the fields
relevant to change detection, serialises it with
`json.dumps(relevant_fields, sort_keys=True)` (default separators
`", "` and `": "`, default `ensure_ascii=True`), UTF-8-encodes the
resulting string (pure ASCII after escaping) and returns the
hexadecimal SHA-256 digest.  The embedding reproduces the whole
pipeline: the canonical JSON text (with Python's string escaping,
including `\uXXXX` escapes and surrogate pairs), the byte encoding and
a full SHA-256.  Python float values are modelled as exact rationals
rendered in plain decimal notation, which agrees with `repr` on the
parsed two-decimal prices this program stores. -/

/-- Lowercase hexadecimal digit, as Python's `%x`. -/
def hexDigitChar (n : ℕ) : Char :=
  if n < 10 then Char.ofNat (48 + n) else Char.ofNat (87 + n)

/-- Four lowercase hexadecimal digits, as Python's `%04x` (for
`n < 0x10000`). -/
def hex4 (n : ℕ) : List Char :=
  [hexDigitChar (n / 4096 % 16), hexDigitChar (n / 256 % 16),
   hexDigitChar (n / 16 % 16), hexDigitChar (n % 16)]

/-- Python's `json` string escaping with `ensure_ascii=True`: the two
JSON metacharacters and the five short control escapes, `\u00XX` for the
remaining control characters, printable ASCII verbatim, and `\uXXXX`
(with a UTF-16 surrogate pair beyond the BMP) for everything above
`0x7e`. -/
def escapeChar (c : Char) : List Char :=
  let n := c.toNat
  if c = '"' then ['\\', '"']
  else if c = '\\' then ['\\', '\\']
  else if c = '\n' then ['\\', 'n']
  else if c = '\r' then ['\\', 'r']
  else if c = '\t' then ['\\', 't']
  else if n = 8 then ['\\', 'b']
  else if n = 12 then ['\\', 'f']
  else if 32 ≤ n ∧ n ≤ 126 then [c]
  else if n < 65536 then '\\' :: 'u' :: hex4 n
  else
    ('\\' :: 'u' :: hex4 (55296 + (n - 65536) / 1024)) ++
      ('\\' :: 'u' :: hex4 (56320 + (n - 65536) % 1024))

/-- A JSON string literal: quote, escaped characters, quote. -/
def encodeJsonString (s : List Char) : List Char :=
  '"' :: (s.map escapeChar).flatten ++ ['"']

/-- The number of decimal fraction digits a rational needs (0 when it is
an integer); every Python float is dyadic, hence terminating, and the
searched bound 1100 exceeds the 1074 fraction bits of a double. -/
def decDigits (q : ℚ) : ℕ :=
  (((List.range 1101).find? (fun k => (q * 10 ^ k).den == 1)).getD 1100)

/-- Python `repr` of a float in plain decimal notation (`10.99`,
`10.0`, `-0.5`): sign, integer digits, point, fraction digits, with a
trailing `.0` for integral values.  (The exponent notation `repr`
switches to below 1e-4 and at 1e16 does not occur for the catalog's
price values.) -/
def renderNum (q : ℚ) : List Char :=
  let k := decDigits q
  let m := (q * 10 ^ k).num.natAbs
  let sign : List Char := if q < 0 then ['-'] else []
  let digits := Nat.toDigits 10 m
  let padded :=
    if digits.length ≤ k then List.replicate (k + 1 - digits.length) '0' ++ digits
    else digits
  if k = 0 then sign ++ padded ++ ['.', '0']
  else sign ++ padded.take (padded.length - k) ++ ['.'] ++ padded.drop (padded.length - k)

/-- The JSON rendering of one value: a quoted escaped string, a decimal
numeral, or `null` for Python `None`. -/
def jsonRender (v : PyVal) : List Char :=
  match v with
  | .str s => encodeJsonString s.data
  | .num q => renderNum q
  | .noneV => ['n', 'u', 'l', 'l']

/-- The keys hashed by `generate_content_hash`
(`src/crawler/storage.py` lines 38–44). -/
def relevantKeys : List String :=
  ["name", "price_incl_tax", "price_excl_tax", "availability", "description"]

/-- The `relevant_fields` dictionary of `generate_content_hash`, in
source order. -/
def relevant_fields (book_data : Dict) : List (String × PyVal) :=
  [("name", book_data.get "name"),
   ("price_incl_tax", book_data.get "price_incl_tax"),
   ("price_excl_tax", book_data.get "price_excl_tax"),
   ("availability", book_data.get "availability"),
   ("description", book_data.get "description")]

/-- Lexicographic order on code points — Python's `str` ordering used by
`sort_keys=True` (the keys here are ASCII). -/
def strLeB : List Char → List Char → Bool
  | [], _ => true
  | _ :: _, [] => false
  | x :: xs, y :: ys =>
    if x.toNat < y.toNat then true
    else if y.toNat < x.toNat then false
    else strLeB xs ys

/-- Insertion into a key-sorted association list. -/
def insertSorted (p : String × PyVal) :
    List (String × PyVal) → List (String × PyVal)
  | [] => [p]
  | q :: qs => if strLeB p.1.data q.1.data then p :: q :: qs else q :: insertSorted p qs

/-- Sorting by key, as `sort_keys=True`. -/
def sortByKey (l : List (String × PyVal)) : List (String × PyVal) :=
  l.foldr insertSorted []

/-- One `"key": value` entry with the default `": "` separator. -/
def entryRender (p : String × PyVal) : List Char :=
  encodeJsonString p.1.data ++ [':', ' '] ++ jsonRender p.2

/-- `json.dumps(·, sort_keys=True)` of a flat dictionary with the
default `", "` item separator. -/
def dumpsSorted (l : List (String × PyVal)) : List Char :=
  '{' :: List.intercalate [',', ' '] ((sortByKey l).map entryRender) ++ ['}']

/-- The deterministic JSON string `generate_content_hash` feeds into
SHA-256. -/
def canonicalJson (book_data : Dict) : List Char :=
  dumpsSorted (relevant_fields book_data)

/-- UTF-8 encoding of one character (Python `str.encode()`). -/
def utf8EncodeChar (c : Char) : List ℕ :=
  let n := c.toNat
  if n < 128 then [n]
  else if n < 2048 then [192 + n / 64, 128 + n % 64]
  else if n < 65536 then [224 + n / 4096, 128 + n / 64 % 64, 128 + n % 64]
  else [240 + n / 262144, 128 + n / 4096 % 64, 128 + n / 64 % 64, 128 + n % 64]

/-- UTF-8 encoding of a string as a byte list. -/
def utf8Encode (s : List Char) : List ℕ :=
  (s.map utf8EncodeChar).flatten

/-! ### SHA-256 (FIPS 180-4), over `ℕ` with explicit `% 2^32` -/

/-- Truncation to a 32-bit word. -/
def w32 (x : ℕ) : ℕ := x % 4294967296

/-- Right rotation of a 32-bit word. -/
def rotr (n x : ℕ) : ℕ := w32 (x / 2 ^ n + x % 2 ^ n * 2 ^ (32 - n))

/-- The SHA-256 round constants (FIPS 180-4 §4.2.2, written in
decimal). -/
def sha256K : List ℕ :=
  [1116352408, 1899447441, 3049323471, 3921009573, 961987163, 1508970993,
   2453635748, 2870763221, 3624381080, 310598401, 607225278, 1426881987,
   1925078388, 2162078206, 2614888103, 3248222580, 3835390401, 4022224774,
   264347078, 604807628, 770255983, 1249150122, 1555081692, 1996064986,
   2554220882, 2821834349, 2952996808, 3210313671, 3336571891, 3584528711,
   113926993, 338241895, 666307205, 773529912, 1294757372, 1396182291,
   1695183700, 1986661051, 2177026350, 2456956037, 2730485921, 2820302411,
   3259730800, 3345764771, 3516065817, 3600352804, 4094571909, 275423344,
   430227734, 506948616, 659060556, 883997877, 958139571, 1322822218,
   1537002063, 1747873779, 1955562222, 2024104815, 2227730452, 2361852424,
   2428436474, 2756734187, 3204031479, 3329325298]

/-- The eight working variables of the compression function. -/
structure H8 where
  a : ℕ
  b : ℕ
  c : ℕ
  d : ℕ
  e : ℕ
  f : ℕ
  g : ℕ
  h : ℕ
deriving DecidableEq, Repr

/-- The SHA-256 initial hash value (FIPS 180-4 §5.3.3, written in
decimal). -/
def sha256Init : H8 :=
  ⟨1779033703, 3144134277, 1013904242, 2773480762,
   1359893119, 2600822924, 528734635, 1541459225⟩

/-- `k` bytes of `n`, big-endian. -/
def bytesBE : ℕ → ℕ → List ℕ
  | 0, _ => []
  | k + 1, n => bytesBE k (n / 256) ++ [n % 256]

/-- SHA-256 padding: `0x80`, zeros to 56 mod 64, and the bit length in
8 big-endian bytes. -/
def sha256Pad (msg : List ℕ) : List ℕ :=
  msg ++ [128] ++ List.replicate ((64 - (msg.length + 9) % 64) % 64) 0 ++
    bytesBE 8 (8 * msg.length)

/-- Big-endian 32-bit words from a byte list. -/
def toWordsBE : List ℕ → List ℕ
  | b0 :: b1 :: b2 :: b3 :: rest =>
    (b0 * 16777216 + b1 * 65536 + b2 * 256 + b3) :: toWordsBE rest
  | _ => []

/-- Message-schedule extension: append `n` further words. -/
def extendLoop : ℕ → List ℕ → List ℕ
  | 0, w => w
  | n + 1, w =>
    let t := w.length
    let nw := w32 ((rotr 17 (w.getD (t - 2) 0) ^^^ rotr 19 (w.getD (t - 2) 0) ^^^
        (w.getD (t - 2) 0) / 1024) +
      w.getD (t - 7) 0 +
      (rotr 7 (w.getD (t - 15) 0) ^^^ rotr 18 (w.getD (t - 15) 0) ^^^
        (w.getD (t - 15) 0) / 8) +
      w.getD (t - 16) 0)
    extendLoop n (w ++ [nw])

/-- One compression round with round constant `ki` and schedule word
`wi`. -/
def sha256Round (st : H8) (ki wi : ℕ) : H8 :=
  let s1 := rotr 6 st.e ^^^ rotr 11 st.e ^^^ rotr 25 st.e
  let ch := (st.e &&& st.f) ^^^ ((st.e ^^^ 4294967295) &&& st.g)
  let t1 := w32 (st.h + s1 + ch + ki + wi)
  let s0 := rotr 2 st.a ^^^ rotr 13 st.a ^^^ rotr 22 st.a
  let mj := (st.a &&& st.b) ^^^ (st.a &&& st.c) ^^^ (st.b &&& st.c)
  let t2 := w32 (s0 + mj)
  ⟨w32 (t1 + t2), st.a, st.b, st.c, w32 (st.d + t1), st.e, st.f, st.g⟩

/-- Process one 64-byte chunk. -/
def processChunk (st : H8) (chunk : List ℕ) : H8 :=
  let w := extendLoop 48 (toWordsBE chunk)
  let f := (sha256K.zip w).foldl (fun s p => sha256Round s p.1 p.2) st
  ⟨w32 (st.a + f.a), w32 (st.b + f.b), w32 (st.c + f.c), w32 (st.d + f.d),
   w32 (st.e + f.e), w32 (st.f + f.f), w32 (st.g + f.g), w32 (st.h + f.h)⟩

/-- The eight final hash words of a message. -/
def sha256H (msg : List ℕ) : H8 :=
  (toBatches ℕ 64 (sha256Pad msg)).foldl processChunk sha256Init

/-- The 256-bit digest as a natural number (each word taken mod 2^32,
which the construction already guarantees). -/
def sha256 (msg : List ℕ) : ℕ :=
  let hs := sha256H msg
  ((((((w32 hs.a * 4294967296 + w32 hs.b) * 4294967296 + w32 hs.c) * 4294967296 +
    w32 hs.d) * 4294967296 + w32 hs.e) * 4294967296 + w32 hs.f) * 4294967296 +
    w32 hs.g) * 4294967296 + w32 hs.h

/-- The 64 lowercase hex digits of a 256-bit digest (`hexdigest()`). -/
def hexOfDigest (n : ℕ) : List Char :=
  (List.range 64).map (fun i => hexDigitChar (n / 16 ^ (63 - i) % 16))

/-- `BookStorage.generate_content_hash` (`src/crawler/storage.py` lines
26–48): the hex SHA-256 of the canonical sorted-key JSON serialisation
of the five relevant fields. -/
def generate_content_hash (book_data : Dict) : String :=
  String.mk (hexOfDigest (sha256 (utf8Encode (canonicalJson book_data))))

/-! ### A decoder for the JSON string escaping

To show that two distinct field strings always serialise differently,
the escaping is inverted: `unescTokens` parses the escaped text back
into UTF-16 code units and `combineSurr` recombines surrogate pairs.
Decoding the encoding of any string returns the string's code points,
so the encoding is injective. -/

/-- Value of a short escape character (`\n`, `\r`, `\t`, `\b`, `\f`,
`\"`, `\\`). -/
def shortEscVal (c : Char) : ℕ :=
  if c = 'n' then 10 else if c = 'r' then 13 else if c = 't' then 9
  else if c = 'b' then 8 else if c = 'f' then 12 else c.toNat

/-- Value of a lowercase hexadecimal digit. -/
def hexVal (c : Char) : ℕ :=
  if c.toNat ≤ 57 then c.toNat - 48 else c.toNat - 87

/-- Value of four hexadecimal digits. -/
def hv4 (a b c d : Char) : ℕ :=
  ((hexVal a * 16 + hexVal b) * 16 + hexVal c) * 16 + hexVal d

/-- Greedy escape-token parser: `\uXXXX` yields its code unit, a short
escape its value, and a plain character its code point. -/
def unescTokens : List Char → List ℕ
  | [] => []
  | c :: r =>
    if c = '\\' then
      match r with
      | 'u' :: a :: b :: c2 :: d :: r2 => hv4 a b c2 d :: unescTokens r2
      | e :: r2 => shortEscVal e :: unescTokens r2
      | [] => []
    else c.toNat :: unescTokens r

/-- Recombination of UTF-16 surrogate pairs into code points. -/
def combineSurr : List ℕ → List ℕ
  | [] => []
  | [u] => [u]
  | u :: v :: r =>
    if 55296 ≤ u ∧ u < 56320 ∧ 56320 ≤ v ∧ v < 57344 then
      (65536 + (u - 55296) * 1024 + (v - 56320)) :: combineSurr r
    else u :: combineSurr (v :: r)
  termination_by l => l.length

/-- The UTF-16 code units of one character (identity below `0x10000`,
surrogate pair above). -/
def unitsOf (c : Char) : List ℕ :=
  if c.toNat < 65536 then [c.toNat]
  else [55296 + (c.toNat - 65536) / 1024, 56320 + (c.toNat - 65536) % 1024]

/-- Whether a value is a string or `None` (as opposed to a number). -/
def PyVal.isStrOrNone : PyVal → Bool
  | .num _ => false
  | _ => true

/-! ### The gluing decomposition of the canonical JSON text -/

/-- `'{"availability": '`. -/
def headA : List Char :=
  ['{', '"', 'a', 'v', 'a', 'i', 'l', 'a', 'b', 'i', 'l', 'i', 't', 'y', '"',
   ':', ' ']

/-- `', "description": '`. -/
def midD : List Char :=
  [',', ' ', '"', 'd', 'e', 's', 'c', 'r', 'i', 'p', 't', 'i', 'o', 'n', '"',
   ':', ' ']

/-- `', "name": '`. -/
def midN : List Char := [',', ' ', '"', 'n', 'a', 'm', 'e', '"', ':', ' ']

/-- `', "price_excl_tax": '`. -/
def midE : List Char :=
  [',', ' ', '"', 'p', 'r', 'i', 'c', 'e', '_', 'e', 'x', 'c', 'l', '_', 't',
   'a', 'x', '"', ':', ' ']

/-- `', "price_incl_tax": '`. -/
def midI : List Char :=
  [',', ' ', '"', 'p', 'r', 'i', 'c', 'e', '_', 'i', 'n', 'c', 'l', '_', 't',
   'a', 'x', '"', ':', ' ']

/-- The canonical JSON text as a function of the five rendered values,
in sorted key order. -/
def glueJson (rA rD rN rE rI : List Char) : List Char :=
  headA ++ (rA ++ (midD ++ (rD ++ (midN ++ (rN ++ (midE ++ (rE ++
    (midI ++ (rI ++ ['}'])))))))))

end BooksCrawl

namespace BooksCrawl

/-! ### Theorems for the fingerprint generator -/

/-- Sorting the five relevant keys gives the fixed alphabetical order. -/
theorem sortByKey_relevant (d : Dict) :
    sortByKey (relevant_fields d) =
      [("availability", d.get "availability"), ("description", d.get "description"),
       ("name", d.get "name"), ("price_excl_tax", d.get "price_excl_tax"),
       ("price_incl_tax", d.get "price_incl_tax")] := rfl

/-- The canonical JSON text decomposes into fixed key glue around the
five rendered field values. -/
theorem canonicalJson_glue (d : Dict) :
    canonicalJson d =
      glueJson (jsonRender (d.get "availability")) (jsonRender (d.get "description"))
        (jsonRender (d.get "name")) (jsonRender (d.get "price_excl_tax"))
        (jsonRender (d.get "price_incl_tax")) := by
  simp [canonicalJson, dumpsSorted, sortByKey_relevant, entryRender, glueJson,
    headA, midD, midN, midE, midI, List.intercalate, encodeJsonString, escapeChar,
    List.intersperse]

/-- The glue map is injective in each argument once the other four are
fixed. -/
theorem glueJson_inj (a1 b1 c1 d1 e1 a2 b2 c2 d2 e2 : List Char)
    (h : glueJson a1 b1 c1 d1 e1 = glueJson a2 b2 c2 d2 e2) :
    (b1 = b2 → c1 = c2 → d1 = d2 → e1 = e2 → a1 = a2) ∧
    (a1 = a2 → c1 = c2 → d1 = d2 → e1 = e2 → b1 = b2) ∧
    (a1 = a2 → b1 = b2 → d1 = d2 → e1 = e2 → c1 = c2) ∧
    (a1 = a2 → b1 = b2 → c1 = c2 → e1 = e2 → d1 = d2) ∧
    (a1 = a2 → b1 = b2 → c1 = c2 → d1 = d2 → e1 = e2) := by
  rw [glueJson, glueJson] at h
  refine ⟨?_, ?_, ?_, ?_, ?_⟩
  · rintro rfl rfl rfl rfl
    have h1 := List.append_cancel_left h
    exact List.append_cancel_right h1
  · rintro rfl rfl rfl rfl
    have h1 := List.append_cancel_left (List.append_cancel_left
      (List.append_cancel_left h))
    exact List.append_cancel_right h1
  · rintro rfl rfl rfl rfl
    have h1 := List.append_cancel_left (List.append_cancel_left
      (List.append_cancel_left (List.append_cancel_left
        (List.append_cancel_left h))))
    exact List.append_cancel_right h1
  · rintro rfl rfl rfl rfl
    have h1 := List.append_cancel_left (List.append_cancel_left
      (List.append_cancel_left (List.append_cancel_left
        (List.append_cancel_left (List.append_cancel_left
          (List.append_cancel_left h))))))
    exact List.append_cancel_right h1
  · rintro rfl rfl rfl rfl
    have h1 := List.append_cancel_left (List.append_cancel_left
      (List.append_cancel_left (List.append_cancel_left
        (List.append_cancel_left (List.append_cancel_left
          (List.append_cancel_left (List.append_cancel_left
            (List.append_cancel_left h))))))))
    exact List.append_cancel_right h1

/-- Hex digits decode back to their value. -/
theorem hexVal_hexDigitChar (m : ℕ) (h : m < 16) :
    hexVal (hexDigitChar m) = m := by
  interval_cases m <;> decide

/-- Four hex digits of a 16-bit value decode back to the value. -/
theorem hv4_hex4 (n : ℕ) (h : n < 65536) :
    hv4 (hexDigitChar (n / 4096 % 16)) (hexDigitChar (n / 256 % 16))
      (hexDigitChar (n / 16 % 16)) (hexDigitChar (n % 16)) = n := by
  rw [hv4, hexVal_hexDigitChar _ (Nat.mod_lt _ (by norm_num)),
    hexVal_hexDigitChar _ (Nat.mod_lt _ (by norm_num)),
    hexVal_hexDigitChar _ (Nat.mod_lt _ (by norm_num)),
    hexVal_hexDigitChar _ (Nat.mod_lt _ (by norm_num))]
  omega

/-- Parsing a plain (unescaped) character. -/
theorem unescTokens_plain (c : Char) (r : List Char) (h : ¬ c = '\\') :
    unescTokens (c :: r) = c.toNat :: unescTokens r := by
  rw [unescTokens.eq_def]
  dsimp only
  rw [if_neg h]

/-- A valid scalar value is never a UTF-16 surrogate. -/
theorem char_toNat_valid (c : Char) :
    c.toNat < 55296 ∨ (57343 < c.toNat ∧ c.toNat < 1114112) := by
  rcases c.valid with h | h
  · left
    exact h
  · right
    exact h

/-- One character's escape parses back to its UTF-16 code units. -/
theorem unescTokens_escapeChar (c : Char) (rest : List Char) :
    unescTokens (escapeChar c ++ rest) = unitsOf c ++ unescTokens rest := by
  by_cases h1 : c = '"'
  · subst h1
    simp [escapeChar, unescTokens, shortEscVal, unitsOf]
  by_cases h2 : c = '\\'
  · subst h2
    simp [escapeChar, unescTokens, shortEscVal, unitsOf]
  by_cases h3 : c = '\n'
  · subst h3
    simp [escapeChar, unescTokens, shortEscVal, unitsOf]
  by_cases h4 : c = '\r'
  · subst h4
    simp [escapeChar, unescTokens, shortEscVal, unitsOf]
  by_cases h5 : c = '\t'
  · subst h5
    simp [escapeChar, unescTokens, shortEscVal, unitsOf]
  by_cases h6 : c.toNat = 8
  · have he : escapeChar c = ['\\', 'b'] := by
      rw [escapeChar]
      simp only [if_neg h1, if_neg h2, if_neg h3, if_neg h4, if_neg h5, if_pos h6]
    rw [he]
    simp only [List.cons_append, List.nil_append]
    rw [show unescTokens ('\\' :: 'b' :: rest) = shortEscVal 'b' :: unescTokens rest
      from by simp [unescTokens]]
    rw [unitsOf, if_pos (by omega)]
    simp [shortEscVal, h6]
  by_cases h7 : c.toNat = 12
  · have he : escapeChar c = ['\\', 'f'] := by
      rw [escapeChar]
      simp only [if_neg h1, if_neg h2, if_neg h3, if_neg h4, if_neg h5,
        if_neg h6, if_pos h7]
    rw [he]
    simp only [List.cons_append, List.nil_append]
    rw [show unescTokens ('\\' :: 'f' :: rest) = shortEscVal 'f' :: unescTokens rest
      from by simp [unescTokens]]
    rw [unitsOf, if_pos (by omega)]
    simp [shortEscVal, h7]
  by_cases h8 : 32 ≤ c.toNat ∧ c.toNat ≤ 126
  · have he : escapeChar c = [c] := by
      rw [escapeChar]
      simp only [if_neg h1, if_neg h2, if_neg h3, if_neg h4, if_neg h5,
        if_neg h6, if_neg h7, if_pos h8]
    rw [he, List.cons_append, List.nil_append, unescTokens_plain c _ h2,
      unitsOf, if_pos (by omega)]
    rfl
  by_cases h9 : c.toNat < 65536
  · have he : escapeChar c = '\\' :: 'u' :: hex4 c.toNat := by
      rw [escapeChar]
      simp only [if_neg h1, if_neg h2, if_neg h3, if_neg h4, if_neg h5,
        if_neg h6, if_neg h7, if_neg h8, if_pos h9]
    rw [he, hex4]
    simp only [List.cons_append, List.nil_append]
    rw [show unescTokens ('\\' :: 'u' :: hexDigitChar (c.toNat / 4096 % 16) ::
        hexDigitChar (c.toNat / 256 % 16) :: hexDigitChar (c.toNat / 16 % 16) ::
        hexDigitChar (c.toNat % 16) :: rest) =
        hv4 (hexDigitChar (c.toNat / 4096 % 16)) (hexDigitChar (c.toNat / 256 % 16))
          (hexDigitChar (c.toNat / 16 % 16)) (hexDigitChar (c.toNat % 16)) ::
          unescTokens rest from by simp [unescTokens]]
    rw [hv4_hex4 c.toNat h9, unitsOf, if_pos h9]
    rfl
  · have he : escapeChar c =
        ('\\' :: 'u' :: hex4 (55296 + (c.toNat - 65536) / 1024)) ++
          ('\\' :: 'u' :: hex4 (56320 + (c.toNat - 65536) % 1024)) := by
      rw [escapeChar]
      simp only [if_neg h1, if_neg h2, if_neg h3, if_neg h4, if_neg h5,
        if_neg h6, if_neg h7, if_neg h8, if_neg h9]
    have hdivlt : (c.toNat - 65536) / 1024 < 1024 := by
      have := char_toNat_valid c
      omega
    have hmodlt : (c.toNat - 65536) % 1024 < 1024 := Nat.mod_lt _ (by norm_num)
    rw [he, hex4, hex4]
    simp only [List.cons_append, List.nil_append]
    rw [show ∀ a b c2 d tail, unescTokens ('\\' :: 'u' :: a :: b :: c2 :: d :: tail) =
        hv4 a b c2 d :: unescTokens tail from fun a b c2 d tail => by
          simp [unescTokens]]
    rw [show ∀ a b c2 d tail, unescTokens ('\\' :: 'u' :: a :: b :: c2 :: d :: tail) =
        hv4 a b c2 d :: unescTokens tail from fun a b c2 d tail => by
          simp [unescTokens]]
    rw [hv4_hex4 _ (by omega), hv4_hex4 _ (by omega), unitsOf, if_neg h9]
    rfl

/-- The whole escaped text parses back to the string's UTF-16 code
units. -/
theorem unescTokens_escape (s : List Char) :
    unescTokens ((s.map escapeChar).flatten) = (s.map unitsOf).flatten := by
  induction s with
  | nil => rfl
  | cons c r ih =>
    rw [List.map_cons, List.map_cons, List.flatten_cons, List.flatten_cons,
      unescTokens_escapeChar, ih]

/-- A leading non-high-surrogate unit is kept as-is. -/
theorem combineSurr_nonsurr (u : ℕ) (l : List ℕ) (h : u < 55296 ∨ 56320 ≤ u) :
    combineSurr (u :: l) = u :: combineSurr l := by
  cases l with
  | nil => rw [combineSurr, combineSurr]
  | cons v r =>
    rw [combineSurr, if_neg (by omega)]

/-- Recombining the code units of a string gives its code points. -/
theorem combineSurr_units (s : List Char) :
    combineSurr ((s.map unitsOf).flatten) = s.map Char.toNat := by
  induction s with
  | nil => rw [List.map_nil, List.flatten_nil, List.map_nil, combineSurr]
  | cons c r ih =>
    rw [List.map_cons, List.flatten_cons, List.map_cons]
    have hvalid := char_toNat_valid c
    by_cases h : c.toNat < 65536
    · rw [unitsOf, if_pos h, List.cons_append, List.nil_append,
        combineSurr_nonsurr _ _ (by omega)]
      rw [ih]
    · rw [unitsOf, if_neg h]
      have hdivlt : (c.toNat - 65536) / 1024 < 1024 := by omega
      have hmodlt : (c.toNat - 65536) % 1024 < 1024 := Nat.mod_lt _ (by norm_num)
      simp only [List.cons_append, List.nil_append]
      rw [combineSurr, if_pos (by omega)]
      have harith : 65536 + (55296 + (c.toNat - 65536) / 1024 - 55296) * 1024 +
          (56320 + (c.toNat - 65536) % 1024 - 56320) = c.toNat := by
        have hdm := Nat.div_add_mod (c.toNat - 65536) 1024
        omega
      rw [harith, ih]

/-- Characters are determined by their code points. -/
theorem char_toNat_injective : Function.Injective Char.toNat := by
  intro a b h
  exact Char.ext (UInt32.ext h)

/-- The JSON string encoding is injective. -/
theorem encodeJsonString_inj (s1 s2 : List Char)
    (h : encodeJsonString s1 = encodeJsonString s2) : s1 = s2 := by
  rw [encodeJsonString, encodeJsonString] at h
  have h1 : (s1.map escapeChar).flatten ++ ['"'] =
      (s2.map escapeChar).flatten ++ ['"'] := by
    exact (List.cons.injEq _ _ _ _).mp h |>.2
  have h2 := List.append_cancel_right h1
  have h3 := congrArg unescTokens h2
  rw [unescTokens_escape, unescTokens_escape] at h3
  have h4 := congrArg combineSurr h3
  rw [combineSurr_units, combineSurr_units] at h4
  exact List.map_injective_iff.mpr char_toNat_injective h4

/-- Strings and `None` with distinct values always render differently
in JSON. -/
theorem jsonRender_inj_strOrNone (v1 v2 : PyVal)
    (h1 : v1.isStrOrNone = true) (h2 : v2.isStrOrNone = true) (hne : v1 ≠ v2) :
    jsonRender v1 ≠ jsonRender v2 := by
  cases v1 with
  | num q => exact absurd h1 (by simp [PyVal.isStrOrNone])
  | str s1 =>
    cases v2 with
    | num q => exact absurd h2 (by simp [PyVal.isStrOrNone])
    | str s2 =>
      intro hc
      apply hne
      rw [jsonRender, jsonRender] at hc
      have := encodeJsonString_inj s1.data s2.data hc
      have hs : s1 = s2 := by
        cases s1
        cases s2
        exact congrArg String.mk this
      rw [hs]
    | noneV =>
      intro hc
      rw [jsonRender, jsonRender, encodeJsonString] at hc
      exact List.noConfusion hc (fun hhead _ => absurd hhead (by decide))
  | noneV =>
    cases v2 with
    | num q => exact absurd h2 (by simp [PyVal.isStrOrNone])
    | str s2 =>
      intro hc
      rw [jsonRender, jsonRender, encodeJsonString] at hc
      exact List.noConfusion hc (fun hhead _ => absurd hhead (by decide))
    | noneV => exact absurd rfl hne

/-- Writing to a key not being read leaves a lookup unchanged. -/
theorem Dict.get_set_ne (d : Dict) (k k' : String) (v : PyVal) (h : k ≠ k') :
    (Dict.set d k v).get k' = d.get k' := by
  induction d with
  | nil =>
    simp [Dict.set, Dict.get, List.find?, beq_eq_false_iff_ne.mpr h]
  | cons p rest ih =>
    rw [Dict.set]
    by_cases hp : p.1 = k
    · rw [if_pos hp]
      rw [Dict.get, Dict.get, List.find?, List.find?]
      rw [show (k == k') = false from beq_eq_false_iff_ne.mpr h]
      rw [show (p.1 == k') = false from beq_eq_false_iff_ne.mpr (hp ▸ h)]
    · rw [if_neg hp]
      rw [Dict.get, Dict.get, List.find?, List.find?]
      by_cases hk' : p.1 = k'
      · rw [show (p.1 == k') = true from beq_iff_eq.mpr hk']
      · rw [show (p.1 == k') = false from beq_eq_false_iff_ne.mpr hk']
        exact ih

/-- Two dictionaries agreeing on the five relevant keys hash
identically. -/
theorem content_hash_extensional (d1 d2 : Dict)
    (h : ∀ k ∈ relevantKeys, d1.get k = d2.get k) :
    generate_content_hash d1 = generate_content_hash d2 := by
  have hr : relevant_fields d1 = relevant_fields d2 := by
    rw [relevant_fields, relevant_fields,
      h "name" (by simp [relevantKeys]),
      h "price_incl_tax" (by simp [relevantKeys]),
      h "price_excl_tax" (by simp [relevantKeys]),
      h "availability" (by simp [relevantKeys]),
      h "description" (by simp [relevantKeys])]
  rw [generate_content_hash, generate_content_hash, canonicalJson, canonicalJson, hr]

/-- Changing an excluded key leaves the hash unchanged. -/
theorem content_hash_excluded (d : Dict) (k : String) (v : PyVal)
    (hk : k ∉ relevantKeys) :
    generate_content_hash (Dict.set d k v) = generate_content_hash d := by
  refine content_hash_extensional _ _ (fun k' hk' => ?_)
  exact Dict.get_set_ne d k k' v (fun he => hk (he ▸ hk'))

/-- Changing one relevant field, the other four unchanged, changes the
canonical serialisation whenever the field's JSON rendering changes. -/
theorem canonicalJson_sensitive (d1 d2 : Dict) (κ : String)
    (hκ : κ ∈ relevantKeys)
    (hoth : ∀ k ∈ relevantKeys, k ≠ κ → d1.get k = d2.get k)
    (hrend : jsonRender (d1.get κ) ≠ jsonRender (d2.get κ)) :
    canonicalJson d1 ≠ canonicalJson d2 := by
  intro hc
  rw [canonicalJson_glue d1, canonicalJson_glue d2] at hc
  have hinj := glueJson_inj _ _ _ _ _ _ _ _ _ _ hc
  simp only [relevantKeys, List.mem_cons, List.not_mem_nil, or_false] at hκ
  rcases hκ with rfl | rfl | rfl | rfl | rfl
  · exact hrend (hinj.2.2.1
      (congrArg jsonRender (hoth "availability" (by simp [relevantKeys]) (by decide)))
      (congrArg jsonRender (hoth "description" (by simp [relevantKeys]) (by decide)))
      (congrArg jsonRender (hoth "price_excl_tax" (by simp [relevantKeys]) (by decide)))
      (congrArg jsonRender (hoth "price_incl_tax" (by simp [relevantKeys]) (by decide))))
  · exact hrend (hinj.2.2.2.2
      (congrArg jsonRender (hoth "availability" (by simp [relevantKeys]) (by decide)))
      (congrArg jsonRender (hoth "description" (by simp [relevantKeys]) (by decide)))
      (congrArg jsonRender (hoth "name" (by simp [relevantKeys]) (by decide)))
      (congrArg jsonRender (hoth "price_excl_tax" (by simp [relevantKeys]) (by decide))))
  · exact hrend (hinj.2.2.2.1
      (congrArg jsonRender (hoth "availability" (by simp [relevantKeys]) (by decide)))
      (congrArg jsonRender (hoth "description" (by simp [relevantKeys]) (by decide)))
      (congrArg jsonRender (hoth "name" (by simp [relevantKeys]) (by decide)))
      (congrArg jsonRender (hoth "price_incl_tax" (by simp [relevantKeys]) (by decide))))
  · exact hrend (hinj.1
      (congrArg jsonRender (hoth "description" (by simp [relevantKeys]) (by decide)))
      (congrArg jsonRender (hoth "name" (by simp [relevantKeys]) (by decide)))
      (congrArg jsonRender (hoth "price_excl_tax" (by simp [relevantKeys]) (by decide)))
      (congrArg jsonRender (hoth "price_incl_tax" (by simp [relevantKeys]) (by decide))))
  · exact hrend (hinj.2.1
      (congrArg jsonRender (hoth "availability" (by simp [relevantKeys]) (by decide)))
      (congrArg jsonRender (hoth "name" (by simp [relevantKeys]) (by decide)))
      (congrArg jsonRender (hoth "price_excl_tax" (by simp [relevantKeys]) (by decide)))
      (congrArg jsonRender (hoth "price_incl_tax" (by simp [relevantKeys]) (by decide))))

/-- The 256-bit digest is below `2 ^ 256`. -/
theorem sha256_lt (msg : List ℕ) : sha256 msg < 2 ^ 256 := by
  have h : (2 : ℕ) ^ 256 =
      115792089237316195423570985008687907853269984665640564039457584007913129639936 := by
    norm_num
  rw [h]
  simp only [sha256]
  have b1 : w32 (sha256H msg).a < 4294967296 := Nat.mod_lt _ (by norm_num)
  have b2 : w32 (sha256H msg).b < 4294967296 := Nat.mod_lt _ (by norm_num)
  have b3 : w32 (sha256H msg).c < 4294967296 := Nat.mod_lt _ (by norm_num)
  have b4 : w32 (sha256H msg).d < 4294967296 := Nat.mod_lt _ (by norm_num)
  have b5 : w32 (sha256H msg).e < 4294967296 := Nat.mod_lt _ (by norm_num)
  have b6 : w32 (sha256H msg).f < 4294967296 := Nat.mod_lt _ (by norm_num)
  have b7 : w32 (sha256H msg).g < 4294967296 := Nat.mod_lt _ (by norm_num)
  have b8 : w32 (sha256H msg).h < 4294967296 := Nat.mod_lt _ (by norm_num)
  omega

end BooksCrawl

namespace BooksCrawl

/-- C5 counterexample: the claim that changing an included field always
changes the hash output is false in principle — SHA-256 maps the
infinitely many distinct description values into finitely many 256-bit
digests, so two dictionaries exist that agree on every key except
`description`, disagree there, and still receive the same
`generate_content_hash` string. -/
theorem generate_content_hash_collision_exists :
    ∃ d1 d2 : Dict,
      (∀ k, k ≠ "description" → Dict.get d1 k = Dict.get d2 k) ∧
      Dict.get d1 "description" ≠ Dict.get d2 "description" ∧
      generate_content_hash d1 = generate_content_hash d2 := by
  obtain ⟨m, n, hmn, hf⟩ := Finite.exists_ne_map_eq_of_infinite
    (fun j : ℕ => (⟨sha256 (utf8Encode (canonicalJson
      [("description", PyVal.str (String.mk (List.replicate j 'a')))])),
      sha256_lt _⟩ : Fin (2 ^ 256)))
  refine ⟨[("description", PyVal.str (String.mk (List.replicate m 'a')))],
    [("description", PyVal.str (String.mk (List.replicate n 'a')))], ?_, ?_, ?_⟩
  · intro k hk
    have hb : (("description" : String) == k) = false :=
      beq_eq_false_iff_ne.mpr (fun he => hk he.symm)
    simp only [Dict.get, List.find?, hb]
  · have hb : (("description" : String) == "description") = true := beq_iff_eq.mpr rfl
    simp only [Dict.get, List.find?, hb]
    intro hc
    apply hmn
    have h1 : String.mk (List.replicate m 'a') = String.mk (List.replicate n 'a') :=
      PyVal.str.inj hc
    have h2 : List.replicate m 'a' = List.replicate n 'a' := by
      injection h1
    have := congrArg List.length h2
    simpa using this
  · have hv := congrArg Fin.val hf
    exact congrArg (fun x => String.mk (hexOfDigest x)) hv

/-- C5 (amended): `generate_content_hash` is deterministic — any two
dictionaries with identical values for the five included fields (in any
key ordering) hash to the same string; changing an excluded field
(e.g. the review count) never changes the output; and changing a single
included field, the other four held fixed, changes the canonical
serialised content that is hashed whenever the field's JSON rendering
changes — in particular always for the string/None-valued fields
(`name`, `availability`, `description`) — so the hash itself changes
except in the measure-zero event of a SHA-256 collision between the two
serialisations (such collisions exist in principle, which is all that
fails in the original claim). -/
theorem generate_content_hash_properties :
    (∀ d1 d2 : Dict, (∀ k ∈ relevantKeys, d1.get k = d2.get k) →
      generate_content_hash d1 = generate_content_hash d2) ∧
    (∀ (d : Dict) (k : String) (v : PyVal), k ∉ relevantKeys →
      generate_content_hash (Dict.set d k v) = generate_content_hash d) ∧
    (∀ (d1 d2 : Dict), ∀ κ ∈ relevantKeys,
      (∀ k ∈ relevantKeys, k ≠ κ → d1.get k = d2.get k) →
      jsonRender (d1.get κ) ≠ jsonRender (d2.get κ) →
      canonicalJson d1 ≠ canonicalJson d2) ∧
    (∀ (d1 d2 : Dict),
      ∀ κ ∈ (["name", "availability", "description"] : List String),
      (∀ k ∈ relevantKeys, k ≠ κ → d1.get k = d2.get k) →
      (d1.get κ).isStrOrNone = true → (d2.get κ).isStrOrNone = true →
      d1.get κ ≠ d2.get κ →
      canonicalJson d1 ≠ canonicalJson d2) := by
  refine ⟨content_hash_extensional, content_hash_excluded,
    fun d1 d2 κ hκ => canonicalJson_sensitive d1 d2 κ hκ, ?_⟩
  intro d1 d2 κ hκ hoth h1 h2 hne
  have hκ' : κ ∈ relevantKeys := by
    simp only [List.mem_cons, List.not_mem_nil, or_false] at hκ
    rcases hκ with rfl | rfl | rfl <;> simp [relevantKeys]
  exact canonicalJson_sensitive d1 d2 κ hκ' hoth
    (jsonRender_inj_strOrNone _ _ h1 h2 hne)

/-- Closed witness for `generate_content_hash_properties`: a concrete
dictionary pair with permuted key order and a differing excluded field
(`num_reviews`) hashes identically, and a concrete pair differing only
in `description` serialises differently. -/
theorem generate_content_hash_properties_witness :
    generate_content_hash
        [("name", PyVal.str "Test Book"), ("price_incl_tax", PyVal.num 11),
         ("price_excl_tax", PyVal.num 9), ("availability", PyVal.str "In stock"),
         ("description", PyVal.str "x"), ("num_reviews", PyVal.num 5)] =
      generate_content_hash
        [("num_reviews", PyVal.num 7), ("description", PyVal.str "x"),
         ("availability", PyVal.str "In stock"), ("price_excl_tax", PyVal.num 9),
         ("price_incl_tax", PyVal.num 11), ("name", PyVal.str "Test Book")] ∧
    canonicalJson [("description", PyVal.str "x")] ≠
      canonicalJson [("description", PyVal.str "y")] := by
  constructor
  · exact generate_content_hash_properties.1 _ _ (by decide)
  · exact generate_content_hash_properties.2.2.2
      [("description", PyVal.str "x")] [("description", PyVal.str "y")]
      "description" (by decide) (by decide) (by decide) (by decide) (by decide)

end BooksCrawl
